import Mathlib

/-!
Verification of the core components of the mcp_ai server: the relational
executor (sql_engine), the REST client (api_connector) and its pool tool
(query_api), the JSON-RPC dispatch engine (mcp_server), and the multi-source
user search (unified_search).  Python strings are modelled as lists of
characters; Python dictionaries as insertion-ordered association lists;
machine behaviour that suspends (awaits) is modelled by explicit state
passing or a step relation.
-/

namespace MCP

/-- Python strings, modelled as lists of characters. -/
abbrev Str := List Char

/-- Conversion from Lean string literals. -/
def str (s : String) : Str := s.toList

/-- ASCII whitespace, matching Python white space characters. -/
def isPySpace (c : Char) : Bool :=
  c = ' ' || c = '\t' || c = '\n' || c = '\r' || c = Char.ofNat 11 || c = Char.ofNat 12

/-- ASCII lower casing of one character (model of str.lower / SQL lower). -/
def asciiLower (c : Char) : Char :=
  if 65 ≤ c.toNat ∧ c.toNat ≤ 90 then Char.ofNat (c.toNat + 32) else c

/-- ASCII lower casing of a string. -/
def lowerL (s : Str) : Str := s.map asciiLower

/-- Python str.strip on the left. -/
def lstripL (s : Str) : Str := s.dropWhile isPySpace

/-- Python str.strip on the right. -/
def rstripL (s : Str) : Str := (s.reverse.dropWhile isPySpace).reverse

/-- Python str.strip (both ends). -/
def pyStripL (s : Str) : Str := rstripL (lstripL s)

/-- Python str.rstrip(";"). -/
def rstripSemiL (s : Str) : Str := (s.reverse.dropWhile (fun c => c = ';')).reverse

/-- Python substring test: needle in hay. -/
def containsL (needle : Str) : Str → Bool
  | [] => needle.isEmpty
  | c :: t => needle.isPrefixOf (c :: t) || containsL needle t

/-- Decimal representation of a natural number, as in Python string formatting. -/
def natRepr (n : Nat) : Str := (toString n).toList

/-- Decimal representation of an integer, as in Python string formatting. -/
def intRepr (n : Int) : Str := (toString n).toList

/-- Scalar-or-structured values stored in a row mapping (model of the Python
values that appear in rows: None, int, str, and the list used for sources). -/
inductive Val where
  | vnone : Val
  | vint (n : Int) : Val
  | vstr (s : Str) : Val
  | vlist (xs : List Str) : Val
deriving DecidableEq

/-- A row: an insertion-ordered mapping from string keys to values
(model of a Python dict). -/
abbrev Row := List (Str × Val)

/-! ## Relational executor (src/server/app/services/sql_engine.py) -/

/-- The pure planning part of execute_sql: the guard and the statement
rewriting.  Returns the structured error message, or the statement text that
is sent to the store. -/
def executeSqlPlan (sql : Str) (limit : Nat) : Except Str Str :=
  if sql = [] then
    Except.error (str "Empty SQL")
  else
    let s := lowerL (pyStripL sql)
    if (str "select").isPrefixOf s then
      let sqlClean := rstripSemiL (pyStripL sql)
      if containsL (str "limit") s then
        Except.ok sqlClean
      else
        Except.ok (sqlClean ++ str " LIMIT " ++ natRepr limit)
    else
      Except.error (str "Only SELECT queries are allowed in this demo.")

/-- Structured result of execute_sql. -/
structure SqlResult where
  success : Bool
  error : Option Str
  columns : List Str
  rows : List Row
deriving DecidableEq

/-- execute_sql over an abstract relational store: the store is a function
from the executed statement and its parameters to the fetched rows. -/
def executeSql (run : Str → List Val → List Row) (sql : Str) (params : List Val)
    (limit : Nat) : SqlResult :=
  match executeSqlPlan sql limit with
  | Except.error e => { success := false, error := some e, columns := [], rows := [] }
  | Except.ok stmt =>
      let rows := run stmt params
      { success := true, error := none,
        columns := (rows.headD []).map Prod.fst, rows := rows }

/-- Modelled from the spec: the first non-blank keyword of a query string
(the spec phrase is the first non-blank keyword; the source has no such
notion, it only tests a lower-cased prefix). -/
def specFirstKeyword (sql : Str) : Str :=
  (lowerL (pyStripL sql)).takeWhile (fun c => !(isPySpace c))

instance exceptDecEq {ε α : Type} [DecidableEq ε] [DecidableEq α] : DecidableEq (Except ε α)
  | Except.ok a, Except.ok b =>
      if h : a = b then isTrue (by rw [h]) else isFalse (by intro hc; cases hc; exact h rfl)
  | Except.ok _, Except.error _ => isFalse (by intro hc; cases hc)
  | Except.error _, Except.ok _ => isFalse (by intro hc; cases hc)
  | Except.error e, Except.error f =>
      if h : e = f then isTrue (by rw [h]) else isFalse (by intro hc; cases hc; exact h rfl)

/-- rstrip(";") splits a string into its kept part and a tail of semicolons. -/
theorem rstripSemi_split (x : Str) :
    ∃ z, x = rstripSemiL x ++ z ∧ ∀ c ∈ z, c = ';' := by
  refine ⟨(x.reverse.takeWhile (fun c => c = ';')).reverse, ?_, ?_⟩
  · conv_lhs => rw [← List.reverse_reverse x,
      ← List.takeWhile_append_dropWhile (p := fun c => c = ';') (l := x.reverse)]
    rw [List.reverse_append]
    rfl
  · intro c hc
    rw [List.mem_reverse] at hc
    simpa using List.mem_takeWhile_imp hc

/-- A prefix made of non-semicolon characters survives stripping a
semicolon tail. -/
theorem prefix_dropSemis {z : Str} (hz : ∀ c ∈ z, c = ';') :
    ∀ {p y : Str}, (∀ c ∈ p, c ≠ ';') → p <+: y ++ z → p <+: y := by
  intro p
  induction p with
  | nil => intro y _ _; exact List.nil_prefix
  | cons a p ih =>
    intro y hp h
    cases y with
    | nil =>
      simp only [List.nil_append] at h
      have ha : a ∈ z := h.subset (by simp)
      exact absurd (hz a ha) (hp a (by simp))
    | cons b y =>
      rw [List.cons_append, List.cons_prefix_cons] at h
      rw [List.cons_prefix_cons]
      exact ⟨h.1, ih (fun c hc => hp c (by simp [hc])) h.2⟩

/-- Every statement the planner forwards to the store starts, after lower
casing, with the characters of select. -/
theorem executeSqlPlan_ok_select {sql stmt : Str} {limit : Nat}
    (h : executeSqlPlan sql limit = Except.ok stmt) :
    (str "select").isPrefixOf (lowerL stmt) = true := by
  unfold executeSqlPlan at h
  by_cases h0 : sql = []
  · simp [h0] at h
  · rw [if_neg h0] at h
    by_cases hpre : (str "select").isPrefixOf (lowerL (pyStripL sql)) = true
    · rw [if_pos hpre] at h
      obtain ⟨z, hxz, hz⟩ := rstripSemi_split (pyStripL sql)
      have hple : (str "select") <+: lowerL (rstripSemiL (pyStripL sql)) := by
        have hpre' : (str "select") <+: lowerL (pyStripL sql) := by
          rwa [List.isPrefixOf_iff_prefix] at hpre
        rw [hxz] at hpre'
        unfold lowerL at hpre' ⊢
        rw [List.map_append] at hpre'
        refine prefix_dropSemis ?_ ?_ hpre'
        · intro c hc
          rw [List.mem_map] at hc
          obtain ⟨d, hd, rfl⟩ := hc
          have hd' : d = ';' := hz d hd
          subst hd'
          decide
        · decide
      by_cases hlim : containsL (str "limit") (lowerL (pyStripL sql)) = true
      · rw [if_pos hlim] at h
        cases h
        rw [List.isPrefixOf_iff_prefix]
        exact hple
      · rw [if_neg hlim] at h
        cases h
        rw [List.isPrefixOf_iff_prefix]
        unfold lowerL
        rw [List.map_append, List.map_append]
        exact (hple.trans (List.prefix_append _ _)).trans (List.prefix_append _ _)
    · rw [if_neg hpre] at h
      cases h

/-- C5 (amended): the executor rejects, with a structured error, exactly the
inputs that are empty or whose stripped lower-cased text does not start with
the prefix select (the source tests a prefix, not the first keyword); and
every statement it forwards to the store starts, case-insensitively, with
select — so under SQLite, where a statement beginning with the characters
select is either the read-only SELECT statement or a syntax error, no write
ever reaches the store. -/
theorem sql_readonly_guard (sql : Str) (limit : Nat) :
    ((∃ e, executeSqlPlan sql limit = Except.error e) ↔
      (sql = [] ∨ (str "select").isPrefixOf (lowerL (pyStripL sql)) = false))
    ∧ (∀ stmt, executeSqlPlan sql limit = Except.ok stmt →
        (str "select").isPrefixOf (lowerL stmt) = true) := by
  constructor
  · constructor
    · intro ⟨e, he⟩
      unfold executeSqlPlan at he
      by_cases h0 : sql = []
      · exact Or.inl h0
      · rw [if_neg h0] at he
        by_cases hpre : (str "select").isPrefixOf (lowerL (pyStripL sql)) = true
        · rw [if_pos hpre] at he
          by_cases hlim : containsL (str "limit") (lowerL (pyStripL sql)) = true
          · rw [if_pos hlim] at he; cases he
          · rw [if_neg hlim] at he; cases he
        · exact Or.inr ((Bool.not_eq_true _) ▸ hpre)
    · intro h
      unfold executeSqlPlan
      rcases h with h0 | hpre
      · exact ⟨str "Empty SQL", by rw [if_pos h0]⟩
      · by_cases h0 : sql = []
        · exact ⟨str "Empty SQL", by rw [if_pos h0]⟩
        · exact ⟨str "Only SELECT queries are allowed in this demo.",
            by rw [if_neg h0, if_neg (by simp [hpre])]⟩
  · intro stmt h
    exact executeSqlPlan_ok_select h

/-- C5 witness: the guard theorem applied to a concrete accepted query. -/
theorem sql_readonly_guard_witness :
    (str "select").isPrefixOf (lowerL (str "select 1 LIMIT 5")) = true :=
  (sql_readonly_guard (str "select 1") 5).2 (str "select 1 LIMIT 5") (by decide)

/-- C5 counterexample: the input selectx from users has first non-blank
keyword selectx, not select, yet the executor accepts it and forwards it to
the store instead of returning a structured error. -/
theorem sql_first_keyword_counterexample :
    specFirstKeyword (str "selectx from users") ≠ str "select"
    ∧ executeSqlPlan (str "selectx from users") 1000 =
        Except.ok (str "selectx from users LIMIT 1000") := by
  constructor
  · decide
  · decide

/-- C6 (amended): for an accepted query whose lower-cased text does not
contain the substring limit anywhere, the executor strips trailing
semicolons, appends LIMIT 1000, and — for any store semantics that honours a
trailing LIMIT n by returning at most n rows — returns at most 1000 rows.
(The source checks for the substring limit, not for a row-limit clause.) -/
theorem sql_implicit_limit (sql : Str) (params : List Val)
    (run : Str → List Val → List Row)
    (hrun : ∀ stmt ps n, (str " LIMIT " ++ natRepr n).isSuffixOf stmt = true →
      (run stmt ps).length ≤ n)
    (hacc : (str "select").isPrefixOf (lowerL (pyStripL sql)) = true)
    (hnolim : containsL (str "limit") (lowerL (pyStripL sql)) = false) :
    executeSqlPlan sql 1000 =
      Except.ok (rstripSemiL (pyStripL sql) ++ str " LIMIT " ++ natRepr 1000)
    ∧ (executeSql run sql params 1000).rows.length ≤ 1000 := by
  have h0 : sql ≠ [] := by
    intro h
    rw [h] at hacc
    exact absurd hacc (by decide)
  have hplan : executeSqlPlan sql 1000 =
      Except.ok (rstripSemiL (pyStripL sql) ++ str " LIMIT " ++ natRepr 1000) := by
    unfold executeSqlPlan
    rw [if_neg h0, if_pos hacc, if_neg (by simp [hnolim])]
  refine ⟨hplan, ?_⟩
  unfold executeSql
  rw [hplan]
  exact hrun _ params 1000 (by
    rw [List.isSuffixOf_iff_suffix, List.append_assoc]
    exact List.suffix_append _ _)

/-- C6 witness: the limit theorem applied to a concrete query and a store
returning no rows. -/
theorem sql_implicit_limit_witness :
    executeSqlPlan (str "select 1") 1000 =
      Except.ok (rstripSemiL (pyStripL (str "select 1")) ++ str " LIMIT " ++ natRepr 1000)
    ∧ (executeSql (fun _ _ => []) (str "select 1") [] 1000).rows.length ≤ 1000 :=
  sql_implicit_limit (str "select 1") [] (fun _ _ => [])
    (fun _ _ _ _ => by simp) (by decide) (by decide)

/-- C6 counterexample: the accepted query select limitless from users has no
row-limit clause, yet no implicit cap is appended (the substring check fires
on the column name), and a store with 1001 matching rows returns all 1001. -/
theorem sql_implicit_limit_counterexample :
    executeSqlPlan (str "select limitless from users") 1000 =
      Except.ok (str "select limitless from users")
    ∧ (executeSql (fun _ _ => List.replicate 1001 []) (str "select limitless from users")
        [] 1000).rows.length = 1001 := by
  have hplan : executeSqlPlan (str "select limitless from users") 1000 =
      Except.ok (str "select limitless from users") := by decide
  refine ⟨hplan, ?_⟩
  unfold executeSql
  rw [hplan]
  show (List.replicate 1001 ([] : Row)).length = 1001
  exact List.length_replicate _ _

/-! ## REST client retry loop (src/server/app/services/api_connector.py,
APIConnector._request) -/

/-- Observable events of one _request call: an HTTP attempt with its index,
or a sleep of the given number of milliseconds. -/
inductive REv where
  | attemptEv (i : Nat) : REv
  | sleepEv (ms : Nat) : REv
deriving DecidableEq

/-- The retry loop of _request: iterate over the attempt indices; return on
the first success; after each failed attempt sleep 0.5 * 2^i seconds
(modelled in milliseconds); when the indices are exhausted raise an error
wrapping the last underlying exception (RuntimeError in the source, the
UpstreamError of the specification). -/
def requestAttempts (att : Nat → Except Str Val) :
    List Nat → Option Str → List REv × Except Str Val
  | [], lastExc =>
      ([], Except.error (str "API request failed after retries: " ++
        (match lastExc with | some e => e | none => str "None")))
  | i :: rest, _lastExc =>
      match att i with
      | Except.ok v => ([REv.attemptEv i], Except.ok v)
      | Except.error e =>
          let out := requestAttempts att rest (some e)
          (REv.attemptEv i :: REv.sleepEv (500 * 2 ^ i) :: out.1, out.2)

/-- _request runs the loop over range(3). -/
def requestRun (att : Nat → Except Str Val) : List REv × Except Str Val :=
  requestAttempts att [0, 1, 2] none

/-- C4 (amended): against an always-failing upstream, _request makes exactly
three attempts and raises an error wrapping the last underlying error; the
waits are 0.5 s and 1.0 s between consecutive attempts, plus a final 2.0 s
wait after the third attempt, before the error is raised. -/
theorem retry_pattern (att : Nat → Except Str Val) (err : Nat → Str)
    (hfail : ∀ i, i < 3 → att i = Except.error (err i)) :
    requestRun att =
      ([REv.attemptEv 0, REv.sleepEv 500, REv.attemptEv 1, REv.sleepEv 1000,
        REv.attemptEv 2, REv.sleepEv 2000],
       Except.error (str "API request failed after retries: " ++ err 2)) := by
  have h0 := hfail 0 (by decide)
  have h1 := hfail 1 (by decide)
  have h2 := hfail 2 (by decide)
  simp [requestRun, requestAttempts, h0, h1, h2]

/-- C4 witness: the retry theorem applied to a concrete failing upstream. -/
theorem retry_pattern_witness :
    requestRun (fun _ => Except.error (str "boom")) =
      ([REv.attemptEv 0, REv.sleepEv 500, REv.attemptEv 1, REv.sleepEv 1000,
        REv.attemptEv 2, REv.sleepEv 2000],
       Except.error (str "API request failed after retries: " ++ str "boom")) :=
  retry_pattern (fun _ => Except.error (str "boom")) (fun _ => str "boom")
    (fun _ _ => rfl)

/-- C4 counterexample: the last event of the failing trace is the 2.0 s
sleep, not an attempt — so the 2.0 s wait is not between attempts (there is
no fourth attempt after it), contradicting the claim that the 0.5/1.0/2.0 s
waits all occur between attempts. -/
theorem retry_wait_placement_counterexample :
    (requestRun (fun _ => Except.error (str "boom"))).1 =
      [REv.attemptEv 0, REv.sleepEv 500, REv.attemptEv 1, REv.sleepEv 1000,
       REv.attemptEv 2, REv.sleepEv 2000]
    ∧ (requestRun (fun _ => Except.error (str "boom"))).1.getLast? =
        some (REv.sleepEv 2000) := by
  constructor
  · rfl
  · rfl

/-! ## REST client pool cache (api_connector.get and the query_api tool,
src/server/app/tools/query_api.py) -/

/-- Decoded response body of an upstream call; isDict records whether the
decoded JSON value is an object (Val elides nested JSON structure, which the
pool only passes through). -/
structure UpBody where
  body : Val
  isDict : Bool
deriving DecidableEq

/-- The per-client TTL cache, as an insertion-ordered association list.
Size bound and entry expiry are orthogonal to the claims proved here. -/
abbrev Cache := List (Str × UpBody)

def lookupCache : Cache → Str → Option UpBody
  | [], _ => none
  | (k2, v) :: t, k => if k2 = k then some v else lookupCache t k

def insertCache : Cache → Str → UpBody → Cache
  | [], k, v => [(k, v)]
  | (k2, v2) :: t, k, v =>
      if k2 = k then (k2, v) :: t else (k2, v2) :: insertCache t k v

/-- Python string comparison (code-point lexicographic), as a Bool. -/
def strLtB : Str → Str → Bool
  | [], [] => false
  | [], _ :: _ => true
  | _ :: _, [] => false
  | a :: as2, b :: bs => if a < b then true else if b < a then false else strLtB as2 bs

def insertSorted (x : Str × Val) : List (Str × Val) → List (Str × Val)
  | [] => [x]
  | y :: t => if strLtB y.1 x.1 then y :: insertSorted x t else x :: y :: t

/-- sorted(params.items()): Python sorts item tuples, which for distinct
keys orders by key. -/
def sortParams (ps : List (Str × Val)) : List (Str × Val) := ps.foldr insertSorted []

/-- The single-quote character (written by code point to keep the file free
of quote literals). -/
def sq : Char := Char.ofNat 39

def joinSep (sep : Str) : List Str → Str
  | [] => []
  | [x] => x
  | x :: t => x ++ sep ++ joinSep sep t

/-- Python repr of a value, modelled for quote- and escape-free strings. -/
def pyReprVal : Val → Str
  | Val.vnone => str "None"
  | Val.vint n => intRepr n
  | Val.vstr s => sq :: (s ++ [sq])
  | Val.vlist xs => str "[" ++ joinSep (str ", ") (xs.map (fun s => sq :: (s ++ [sq]))) ++ str "]"

/-- APIConnector._cache_key: the path alone when there are no parameters,
else the path, a question mark, and the repr of the sorted item tuple. -/
def cacheKey (path : Str) (params : List (Str × Val)) : Str :=
  if params = [] then path
  else
    let items := sortParams params
    path ++ str "?(" ++
      joinSep (str ", ")
        (items.map (fun kv =>
          str "(" ++ pyReprVal (Val.vstr kv.1) ++ str ", " ++ pyReprVal kv.2 ++ str ")")) ++
      (if items.length = 1 then str ",)" else str ")")

/-- APIConnector.get executed by a single caller (the concurrent behaviour
is the step relation further below): cache lookup, then fetch through
_request (abstracted as the oracle http), then cache fill.  The third
component records whether an underlying HTTP call was issued. -/
def connGet (http : Str → List (Str × Val) → Except Str UpBody)
    (st : Cache) (path : Str) (params : List (Str × Val)) (useCache : Bool) :
    Except Str UpBody × Cache × Bool :=
  let key := cacheKey path params
  match (if useCache then lookupCache st key else none) with
  | some v => (Except.ok v, st, false)
  | none =>
      match http path params with
      | Except.ok v => (Except.ok v, (if useCache then insertCache st key v else st), true)
      | Except.error e => (Except.error e, st, true)

/-- The query_api tool request (QueryAPIRequest). -/
structure QueryAPIReq where
  method : Str
  path : Str
  params : List (Str × Val)
  useCache : Bool
  invalidateCache : Bool
deriving DecidableEq

def asciiUpper (c : Char) : Char :=
  if 'a' ≤ c ∧ c ≤ 'z' then Char.ofNat (c.toNat - 32) else c

def upperL (s : Str) : Str := s.map asciiUpper

/-- Structured result of the query_api tool. -/
structure QAResult where
  success : Bool
  status : Option Nat
  data : Option UpBody
  errorMsg : Option Str
deriving DecidableEq

/-- The query_api tool: dispatch on the upper-cased method; GET goes through
the connector cache; POST/PUT/DELETE call upstream directly and clear the
whole client cache only when the caller set invalidate_cache — and only
after a successful call (an upstream exception jumps to the error return
before the clear). -/
def queryApi (http : Str → Str → Except Str UpBody)
    (httpGet : Str → List (Str × Val) → Except Str UpBody)
    (st : Cache) (req : QueryAPIReq) : QAResult × Cache :=
  let method := upperL req.method
  if method = str "GET" then
    match connGet httpGet st req.path req.params req.useCache with
    | (Except.ok v, st2, _) =>
        ({ success := true, status := some 200, data := some v, errorMsg := none }, st2)
    | (Except.error e, st2, _) =>
        ({ success := false, status := none, data := none, errorMsg := some e }, st2)
  else if method = str "POST" then
    match http (str "POST") req.path with
    | Except.ok v =>
        ({ success := true, status := some (if v.isDict then 201 else 200),
           data := some v, errorMsg := none },
         if req.invalidateCache then [] else st)
    | Except.error e =>
        ({ success := false, status := none, data := none, errorMsg := some e }, st)
  else if method = str "PUT" then
    match http (str "PUT") req.path with
    | Except.ok v =>
        ({ success := true, status := some 200, data := some v, errorMsg := none },
         if req.invalidateCache then [] else st)
    | Except.error e =>
        ({ success := false, status := none, data := none, errorMsg := some e }, st)
  else if method = str "DELETE" then
    match http (str "DELETE") req.path with
    | Except.ok v =>
        ({ success := true, status := some 200, data := some v, errorMsg := none },
         if req.invalidateCache then [] else st)
    | Except.error e =>
        ({ success := false, status := none, data := none, errorMsg := some e }, st)
  else
    ({ success := false, status := none, data := none,
       errorMsg := some (str "Unsupported method: " ++ req.method) }, st)

/-- C3 (amended): when the caller sets invalidate_cache and the upstream
call succeeds, a mutating verb clears the entire cache for the client, and
every subsequent GET (on any key) misses the cache and re-issues the
underlying HTTP call. -/
theorem cache_invalidate_flag (http : Str → Str → Except Str UpBody)
    (httpGet : Str → List (Str × Val) → Except Str UpBody)
    (st : Cache) (req : QueryAPIReq)
    (hm : upperL req.method = str "POST" ∨ upperL req.method = str "PUT" ∨
      upperL req.method = str "DELETE")
    (hflag : req.invalidateCache = true)
    (hok : ∀ m p, ∃ v, http m p = Except.ok v) :
    (queryApi http httpGet st req).2 = []
    ∧ ∀ path params,
        (connGet httpGet (queryApi http httpGet st req).2 path params true).2.2 = true := by
  have hcleared : (queryApi http httpGet st req).2 = [] := by
    rcases hm with hm | hm | hm <;>
    · obtain ⟨v, hv⟩ := hok (upperL req.method) req.path
      rw [hm] at hv
      simp only [queryApi, hm, hv, hflag]
      rfl
  refine ⟨hcleared, ?_⟩
  intro path params
  rw [hcleared]
  unfold connGet
  simp only [lookupCache]
  cases httpGet path params <;> rfl

/-- C3 witness: the invalidate theorem applied to a concrete POST. -/
theorem cache_invalidate_flag_witness :
    (queryApi (fun _ _ => Except.ok ⟨Val.vstr (str "ok"), true⟩)
      (fun _ _ => Except.ok ⟨Val.vstr (str "items"), false⟩)
      [(str "/items", ⟨Val.vstr (str "items"), false⟩)]
      { method := str "post", path := str "/items", params := [],
        useCache := true, invalidateCache := true }).2 = []
    ∧ ∀ path params,
        (connGet (fun _ _ => Except.ok ⟨Val.vstr (str "items"), false⟩)
          (queryApi (fun _ _ => Except.ok ⟨Val.vstr (str "ok"), true⟩)
            (fun _ _ => Except.ok ⟨Val.vstr (str "items"), false⟩)
            [(str "/items", ⟨Val.vstr (str "items"), false⟩)]
            { method := str "post", path := str "/items", params := [],
              useCache := true, invalidateCache := true }).2
          path params true).2.2 = true :=
  cache_invalidate_flag _ _ _ _ (Or.inl (by decide)) rfl (fun m p => ⟨_, rfl⟩)

/-- C3 counterexample: a POST without the invalidate_cache flag (the
default) leaves the cache intact, and the next GET on a previously cached
key is served from the cache — no underlying HTTP call is issued —
contradicting the claim that every mutating verb clears the entire cache. -/
theorem cache_invalidate_counterexample :
    (queryApi (fun _ _ => Except.ok ⟨Val.vstr (str "ok"), true⟩)
      (fun _ _ => Except.ok ⟨Val.vstr (str "items"), false⟩)
      [(str "/items", ⟨Val.vstr (str "items"), false⟩)]
      { method := str "POST", path := str "/items", params := [],
        useCache := true, invalidateCache := false }).2 =
      [(str "/items", ⟨Val.vstr (str "items"), false⟩)]
    ∧ (connGet (fun _ _ => Except.ok ⟨Val.vstr (str "items"), false⟩)
        [(str "/items", ⟨Val.vstr (str "items"), false⟩)]
        (str "/items") [] true).2.2 = false := by
  constructor
  · rfl
  · rfl

/-! ## Single-flight GET (api_connector.get under cooperative concurrency)

N tasks run APIConnector.get for the same missing key with use_cache on.
Atomic blocks are delimited by the await points of the source: the
synchronous pre-lock cache probe; the lock acquisition followed by the
synchronous double-check (and, on a hit, the release and return); the HTTP
fetch; and the fetch return followed by the synchronous cache write, release
and return.  The upstream always returns the fixed value v0. -/

/-- State of one task running get. -/
inductive TState where
  | start : TState
  | wantLock : TState
  | fetching : TState
  | done (v : Val) : TState
deriving DecidableEq

/-- Shared state: the per-task positions, the client mutex, the cache entry
for the key, and the number of underlying HTTP calls issued. -/
structure SFState (n : Nat) where
  tasks : Fin n → TState
  lock : Option (Fin n)
  cache : Option Val
  calls : Nat

def sfInit (n : Nat) : SFState n :=
  { tasks := fun _ => TState.start, lock := none, cache := none, calls := 0 }

/-- One scheduler step: the atomic blocks of get, interleaved arbitrarily
across tasks. -/
inductive SFStep (v0 : Val) {n : Nat} : SFState n → SFState n → Prop
  | probeHit (s : SFState n) (t : Fin n) (v : Val) :
      s.tasks t = TState.start → s.cache = some v →
      SFStep v0 s { s with tasks := Function.update s.tasks t (TState.done v) }
  | probeMiss (s : SFState n) (t : Fin n) :
      s.tasks t = TState.start → s.cache = none →
      SFStep v0 s { s with tasks := Function.update s.tasks t TState.wantLock }
  | acquireHit (s : SFState n) (t : Fin n) (v : Val) :
      s.tasks t = TState.wantLock → s.lock = none → s.cache = some v →
      SFStep v0 s { s with tasks := Function.update s.tasks t (TState.done v) }
  | acquireMiss (s : SFState n) (t : Fin n) :
      s.tasks t = TState.wantLock → s.lock = none → s.cache = none →
      SFStep v0 s { tasks := Function.update s.tasks t TState.fetching,
                    lock := some t, cache := s.cache, calls := s.calls + 1 }
  | fetchDone (s : SFState n) (t : Fin n) :
      s.tasks t = TState.fetching →
      SFStep v0 s { tasks := Function.update s.tasks t (TState.done v0),
                    lock := none, cache := some v0, calls := s.calls }

/-- The single-flight invariant: the cache only ever holds the upstream
value; a fetching task holds the mutex; no fetch is in flight once the cache
is filled; the call count is one per in-flight fetch plus one per filled
cache; finished tasks returned the upstream value; and a finished task
implies at least one call. -/
def SFInv (v0 : Val) {n : Nat} (s : SFState n) : Prop :=
  (∀ v, s.cache = some v → v = v0) ∧
  (∀ t, s.tasks t = TState.fetching → s.lock = some t) ∧
  ((∃ t, s.tasks t = TState.fetching) → s.cache = none) ∧
  s.calls = ((if ∃ t, s.tasks t = TState.fetching then 1 else 0) +
    (if s.cache.isSome then 1 else 0)) ∧
  (∀ t v, s.tasks t = TState.done v → v = v0) ∧
  ((∃ t v, s.tasks t = TState.done v) → 1 ≤ s.calls)

theorem sfInv_init (v0 : Val) (n : Nat) : SFInv v0 (sfInit n) := by
  refine ⟨?_, ?_, ?_, ?_, ?_, ?_⟩ <;> simp [sfInit]

theorem sfInv_step {v0 : Val} {n : Nat} {s s2 : SFState n}
    (h : SFStep v0 s s2) (hi : SFInv v0 s) : SFInv v0 s2 := by
  obtain ⟨h1, h2, h3, h4, h5, h6⟩ := hi
  cases h with
  | probeHit t v htask hcache =>
    have hvv : v = v0 := h1 v hcache
    have hnof : ¬ ∃ t2, s.tasks t2 = TState.fetching := fun hf => by
      rw [h3 hf] at hcache; cases hcache
    have hnof2 : ¬ ∃ t2, Function.update s.tasks t (TState.done v) t2 = TState.fetching := by
      rintro ⟨t2, ht2⟩
      by_cases he : t2 = t
      · subst he; rw [Function.update_same] at ht2; cases ht2
      · rw [Function.update_noteq he] at ht2; exact hnof ⟨t2, ht2⟩
    refine ⟨h1, ?_, ?_, ?_, ?_, ?_⟩
    · intro t2 ht2; exact absurd ⟨t2, ht2⟩ hnof2
    · intro hf; exact absurd hf hnof2
    · simp only [h4, if_neg hnof, if_neg hnof2]
    · intro t2 v2 ht2
      dsimp only at ht2
      by_cases he : t2 = t
      · subst he; rw [Function.update_same] at ht2; cases ht2; exact hvv
      · rw [Function.update_noteq he] at ht2; exact h5 t2 v2 ht2
    · intro _
      rw [h4, if_neg hnof, hcache]
      simp
  | probeMiss t htask hcache =>
    have hupd : ∀ t2, Function.update s.tasks t TState.wantLock t2 = TState.fetching ↔
        s.tasks t2 = TState.fetching := by
      intro t2
      by_cases he : t2 = t
      · subst he
        rw [Function.update_same]
        constructor
        · intro hx; cases hx
        · intro hx; rw [htask] at hx; cases hx
      · rw [Function.update_noteq he]
    have hupd2 : ∀ t2 v2, Function.update s.tasks t TState.wantLock t2 = TState.done v2 ↔
        s.tasks t2 = TState.done v2 := by
      intro t2 v2
      by_cases he : t2 = t
      · subst he
        rw [Function.update_same]
        constructor
        · intro hx; cases hx
        · intro hx; rw [htask] at hx; cases hx
      · rw [Function.update_noteq he]
    refine ⟨h1, ?_, ?_, ?_, ?_, ?_⟩
    · intro t2 ht2; exact h2 t2 ((hupd t2).mp ht2)
    · intro ⟨t2, ht2⟩; exact h3 ⟨t2, (hupd t2).mp ht2⟩
    · rw [h4]
      congr 1
      by_cases hf : ∃ t2, s.tasks t2 = TState.fetching
      · rw [if_pos hf, if_pos (by obtain ⟨t2, ht2⟩ := hf; exact ⟨t2, (hupd t2).mpr ht2⟩)]
      · rw [if_neg hf, if_neg (fun hf2 => hf (by obtain ⟨t2, ht2⟩ := hf2; exact ⟨t2, (hupd t2).mp ht2⟩))]
    · intro t2 v2 ht2; exact h5 t2 v2 ((hupd2 t2 v2).mp ht2)
    · intro ⟨t2, v2, ht2⟩; exact h6 ⟨t2, v2, (hupd2 t2 v2).mp ht2⟩
  | acquireHit t v htask hlock hcache =>
    have hvv : v = v0 := h1 v hcache
    have hnof : ¬ ∃ t2, s.tasks t2 = TState.fetching := fun hf => by
      rw [h3 hf] at hcache; cases hcache
    have hnof2 : ¬ ∃ t2, Function.update s.tasks t (TState.done v) t2 = TState.fetching := by
      rintro ⟨t2, ht2⟩
      by_cases he : t2 = t
      · subst he; rw [Function.update_same] at ht2; cases ht2
      · rw [Function.update_noteq he] at ht2; exact hnof ⟨t2, ht2⟩
    refine ⟨h1, ?_, ?_, ?_, ?_, ?_⟩
    · intro t2 ht2; exact absurd ⟨t2, ht2⟩ hnof2
    · intro hf; exact absurd hf hnof2
    · simp only [h4, if_neg hnof, if_neg hnof2]
    · intro t2 v2 ht2
      dsimp only at ht2
      by_cases he : t2 = t
      · subst he; rw [Function.update_same] at ht2; cases ht2; exact hvv
      · rw [Function.update_noteq he] at ht2; exact h5 t2 v2 ht2
    · intro _
      rw [h4, if_neg hnof, hcache]
      simp
  | acquireMiss t htask hlock hcache =>
    have hnof : ¬ ∃ t2, s.tasks t2 = TState.fetching := by
      rintro ⟨t2, ht2⟩
      rw [h2 t2 ht2] at hlock
      cases hlock
    have hcalls0 : s.calls = 0 := by
      rw [h4, if_neg hnof, hcache]
      rfl
    refine ⟨?_, ?_, ?_, ?_, ?_, ?_⟩
    · intro v hv; rw [hcache] at hv; cases hv
    · intro t2 ht2
      dsimp only at ht2
      by_cases he : t2 = t
      · subst he; rfl
      · rw [Function.update_noteq he] at ht2; exact absurd ⟨t2, ht2⟩ hnof
    · intro _; exact hcache
    · have hf : ∃ t2, Function.update s.tasks t TState.fetching t2 = TState.fetching :=
        ⟨t, by rw [Function.update_same]⟩
      simp only [hf, if_pos, hcache, hcalls0]
      rfl
    · intro t2 v2 ht2
      dsimp only at ht2
      by_cases he : t2 = t
      · subst he; rw [Function.update_same] at ht2; cases ht2
      · rw [Function.update_noteq he] at ht2; exact h5 t2 v2 ht2
    · intro _
      simp
  | fetchDone t htask =>
    have hlock : s.lock = some t := h2 t htask
    have hcache : s.cache = none := h3 ⟨t, htask⟩
    have hcalls1 : s.calls = 1 := by
      rw [h4, if_pos ⟨t, htask⟩, hcache]
      rfl
    have hnof2 : ¬ ∃ t2, Function.update s.tasks t (TState.done v0) t2 = TState.fetching := by
      rintro ⟨t2, ht2⟩
      by_cases he : t2 = t
      · subst he; rw [Function.update_same] at ht2; cases ht2
      · rw [Function.update_noteq he] at ht2
        have := h2 t2 ht2
        rw [hlock] at this
        cases this
        exact he rfl
    refine ⟨?_, ?_, ?_, ?_, ?_, ?_⟩
    · intro v hv; cases hv; rfl
    · intro t2 ht2; exact absurd ⟨t2, ht2⟩ hnof2
    · intro hf; exact absurd hf hnof2
    · simp only [if_neg hnof2, hcalls1]
      rfl
    · intro t2 v2 ht2
      dsimp only at ht2
      by_cases he : t2 = t
      · subst he; rw [Function.update_same] at ht2; cases ht2; rfl
      · rw [Function.update_noteq he] at ht2; exact h5 t2 v2 ht2
    · intro _
      rw [hcalls1]

theorem sfInv_reachable {v0 : Val} {n : Nat} {s : SFState n}
    (h : Relation.ReflTransGen (SFStep v0) (sfInit n) s) : SFInv v0 s := by
  induction h with
  | refl => exact sfInv_init v0 n
  | tail _ hstep ih => exact sfInv_step hstep ih

/-- C9: in any interleaving of N concurrent GETs on the same missing key
against an upstream returning v0, once every task has returned, exactly one
underlying HTTP call was issued and every task returned the fetched value
v0 — later misses observe the cached value once the first fetch returns. -/
theorem single_flight {n : Nat} (v0 : Val) (s : SFState n)
    (h : Relation.ReflTransGen (SFStep v0) (sfInit n) s)
    (hn : 0 < n)
    (hdone : ∀ t, ∃ v, s.tasks t = TState.done v) :
    s.calls = 1 ∧ ∀ t v, s.tasks t = TState.done v → v = v0 := by
  obtain ⟨h1, h2, h3, h4, h5, h6⟩ := sfInv_reachable h
  have hnof : ¬ ∃ t, s.tasks t = TState.fetching := by
    rintro ⟨t, ht⟩
    obtain ⟨v, hv⟩ := hdone t
    rw [ht] at hv
    cases hv
  have hd : ∃ t v, s.tasks t = TState.done v := ⟨⟨0, hn⟩, hdone ⟨0, hn⟩⟩
  have hge := h6 hd
  refine ⟨?_, h5⟩
  rw [h4, if_neg hnof] at hge ⊢
  by_cases hc : s.cache.isSome = true
  · rw [if_pos hc]
  · rw [if_neg hc] at hge
    exact absurd hge (by decide)

/-- The upstream value used in the single-flight witness run. -/
def sfV : Val := Val.vstr (str "v")

def sfS1 : SFState 2 :=
  { sfInit 2 with tasks := Function.update (sfInit 2).tasks 0 TState.wantLock }

def sfS2 : SFState 2 :=
  { tasks := Function.update sfS1.tasks 0 TState.fetching,
    lock := some 0, cache := sfS1.cache, calls := sfS1.calls + 1 }

def sfS3 : SFState 2 :=
  { tasks := Function.update sfS2.tasks 0 (TState.done sfV),
    lock := none, cache := some sfV, calls := sfS2.calls }

def sfS4 : SFState 2 :=
  { sfS3 with tasks := Function.update sfS3.tasks 1 (TState.done sfV) }

/-- C9 witness: the single-flight theorem applied to a concrete two-task
run (miss, fetch, fill, then a pre-lock hit by the second task). -/
theorem single_flight_witness :
    sfS4.calls = 1 ∧ ∀ t v, sfS4.tasks t = TState.done v → v = sfV := by
  have c1 : SFStep sfV (sfInit 2) sfS1 := SFStep.probeMiss _ 0 rfl rfl
  have c2 : SFStep sfV sfS1 sfS2 := SFStep.acquireMiss _ 0 rfl rfl rfl
  have c3 : SFStep sfV sfS2 sfS3 := SFStep.fetchDone _ 0 rfl
  have c4 : SFStep sfV sfS3 sfS4 := SFStep.probeHit _ 1 sfV rfl rfl
  have hchain : Relation.ReflTransGen (SFStep sfV) (sfInit 2) sfS4 :=
    Relation.ReflTransGen.head c1 (Relation.ReflTransGen.head c2
      (Relation.ReflTransGen.head c3 (Relation.ReflTransGen.head c4
        Relation.ReflTransGen.refl)))
  refine single_flight sfV sfS4 hchain (by decide) ?_
  intro t
  fin_cases t
  · exact ⟨sfV, rfl⟩
  · exact ⟨sfV, rfl⟩

/-! ## JSON-RPC dispatch engine (src/server/app/mcp_server.py) -/

/-- JSON values.  Objects are insertion-ordered field lists. -/
inductive Json where
  | jnull : Json
  | jbool (b : Bool) : Json
  | jnum (n : Int) : Json
  | jstr (s : Str) : Json
  | jarr (xs : List Json) : Json
  | jobj (fields : List (Str × Json)) : Json

/-- Field lookup in a JSON object (Python dict access by key). -/
def jLookup : List (Str × Json) → Str → Option Json
  | [], _ => none
  | (k2, v) :: t, k => if k2 = k then some v else jLookup t k

/-- dict.get k: a present value (even null, which loads as Python None,
modelled jnull) or Python None when absent. -/
def jGet (fields : List (Str × Json)) (k : Str) : Json :=
  (jLookup fields k).getD Json.jnull

/-- Python truthiness of a decoded JSON value. -/
def jTruthy : Json → Bool
  | Json.jnull => false
  | Json.jbool b => b
  | Json.jnum n => n != 0
  | Json.jstr s => !s.isEmpty
  | Json.jarr xs => !xs.isEmpty
  | Json.jobj f => !f.isEmpty

/-- Python str() of a decoded JSON value as it appears in interpolated
error messages (container reprs elided: no claim depends on them). -/
def pyShow : Json → Str
  | Json.jnull => str "None"
  | Json.jbool b => if b then str "True" else str "False"
  | Json.jnum n => intRepr n
  | Json.jstr s => s
  | Json.jarr _ => str "<list>"
  | Json.jobj _ => str "<dict>"

/-- JSONRPCRequest, as built by _parse_request. -/
structure JReq where
  jsonrpc : Json
  id : Json
  method : Json
  params : Json

/-- A JSON-RPC error object. -/
structure JErr where
  code : Int
  message : Str
  data : Option Str

/-- JSONRPCResponse. -/
structure JResp where
  id : Json
  result : Option Json
  error : Option JErr

/-- A successful response. -/
def okResp (rid : Json) (result : Json) : JResp :=
  { id := rid, result := some result, error := none }

/-- An error response. -/
def errResp (rid : Json) (code : Int) (message : Str) (data : Option Str) : JResp :=
  { id := rid, result := none, error := some { code := code, message := message, data := data } }

/-- _parse_request: None for a valid JSON value that is not an object, else
the request with defaulted fields (a present null is Python None, not the
default). -/
def parseReq : Json → Option JReq
  | Json.jobj f =>
      some { jsonrpc := (jLookup f (str "jsonrpc")).getD (Json.jstr (str "2.0")),
             id := (jLookup f (str "id")).getD Json.jnull,
             method := (jLookup f (str "method")).getD (Json.jstr (str "")),
             params := (jLookup f (str "params")).getD Json.jnull }
  | _ => none

/-- The registered tool names, in registration order (_register_tools). -/
def registeredTools : List Str :=
  [str "list_sources", str "query_data", str "query_api", str "transform_data",
   str "integrate_data", str "export_data", str "analyze_schema",
   str "suggest_queries", str "check_data_quality", str "list_files",
   str "parse_file", str "search_users"]

/-- External collaborators of the dispatch engine: the tool handlers (an
exception raised by a handler is the error case), the static tool
descriptors, the two resources, json.dumps, and the static help prompt. -/
structure RpcEnv where
  callTool : Str → Json → Except Str Json
  toolDefs : List Json
  sourcesResource : Json
  tablesResource : Json
  dumps : Json → Str
  queryHelp : Json

/-- The static initialize result. -/
def initializeResult : Json :=
  Json.jobj
    [(str "protocolVersion", Json.jstr (str "2024-11-05")),
     (str "capabilities",
      Json.jobj [(str "tools", Json.jobj []), (str "resources", Json.jobj []),
                 (str "prompts", Json.jobj [])]),
     (str "serverInfo",
      Json.jobj [(str "name", Json.jstr (str "null-pointers-mcp-server")),
                 (str "version", Json.jstr (str "1.0.0"))])]

/-- The static resources/list result. -/
def resourcesListResult : Json :=
  Json.jobj [(str "resources", Json.jarr
    [Json.jobj [(str "uri", Json.jstr (str "sources://all")),
                (str "name", Json.jstr (str "All Data Sources")),
                (str "description", Json.jstr (str "List of all configured data sources")),
                (str "mimeType", Json.jstr (str "application/json"))],
     Json.jobj [(str "uri", Json.jstr (str "tables://all")),
                (str "name", Json.jstr (str "All Database Tables")),
                (str "description", Json.jstr (str "List of all database tables")),
                (str "mimeType", Json.jstr (str "application/json"))]])]

/-- The static prompts/list result. -/
def promptsListResult : Json :=
  Json.jobj [(str "prompts", Json.jarr
    [Json.jobj [(str "name", Json.jstr (str "query_help")),
                (str "description",
                 Json.jstr (str "Get help with query syntax and examples"))]])]

/-- The reading of one resource URI as a contents envelope. -/
def resourceContents (env : RpcEnv) (u : Str) (content : Json) : Json :=
  Json.jobj [(str "contents", Json.jarr
    [Json.jobj [(str "uri", Json.jstr u),
                (str "mimeType", Json.jstr (str "application/json")),
                (str "text", Json.jstr (env.dumps content))]])]

/-- _handle_tools_call: name lookup, argument binding, handler invocation
with a raised exception wrapped as InternalError carrying the request id.
An equality test of a non-string name against a registered name is False in
Python, so only string names dispatch. -/
def toolsCall (env : RpcEnv) (req : JReq) : Except Str JResp :=
  let params := if jTruthy req.params then req.params else Json.jobj []
  match params with
  | Json.jobj f =>
      let toolName := jGet f (str "name")
      let args := (jLookup f (str "arguments")).getD (Json.jobj [])
      match toolName with
      | Json.jstr s =>
          if s ∈ registeredTools then
            match env.callTool s args with
            | Except.ok r => Except.ok (okResp req.id r)
            | Except.error e =>
                Except.ok (errResp req.id (-32603)
                  (str "Tool execution failed: " ++ e) (some e))
          else
            Except.ok (errResp req.id (-32601) (str "Tool not found: " ++ s) none)
      | other =>
          Except.ok (errResp req.id (-32601)
            (str "Tool not found: " ++ pyShow other) none)
  | _ => Except.error (str "AttributeError: params has no attribute get")

/-- _handle_resources_read. -/
def resourcesRead (env : RpcEnv) (req : JReq) : Except Str JResp :=
  let params := if jTruthy req.params then req.params else Json.jobj []
  match params with
  | Json.jobj f =>
      match (jLookup f (str "uri")).getD (Json.jstr (str "")) with
      | Json.jstr u =>
          if (str "sources://").isPrefixOf u then
            Except.ok (okResp req.id (resourceContents env u env.sourcesResource))
          else if (str "tables://").isPrefixOf u then
            Except.ok (okResp req.id (resourceContents env u env.tablesResource))
          else
            Except.ok (errResp req.id (-32602) (str "Unknown resource URI: " ++ u) none)
      | _ => Except.error (str "AttributeError: uri has no attribute startswith")
  | _ => Except.error (str "AttributeError: params has no attribute get")

/-- _handle_prompts_get.  Comparison of a non-string name with the literal
query_help is False in Python. -/
def promptsGet (env : RpcEnv) (req : JReq) : Except Str JResp :=
  let params := if jTruthy req.params then req.params else Json.jobj []
  match params with
  | Json.jobj f =>
      match jGet f (str "name") with
      | Json.jstr s =>
          if s = str "query_help" then
            Except.ok (okResp req.id env.queryHelp)
          else
            Except.ok (errResp req.id (-32602) (str "Unknown prompt: " ++ s) none)
      | other =>
          Except.ok (errResp req.id (-32602)
            (str "Unknown prompt: " ++ pyShow other) none)
  | _ => Except.error (str "AttributeError: params has no attribute get")

/-- _handle_method: the protocol dispatch chain, then the shorthand path for
a method equal to a registered tool name (which returns the _call_tool
response directly, whose id field is the constructor default None), then
MethodNotFound.  A non-string method compares unequal to every literal in
Python, so it falls through to MethodNotFound. -/
def handleMethod (env : RpcEnv) (req : JReq) : Except Str JResp :=
  match req.method with
  | Json.jstr m =>
      if m = str "initialize" then
        Except.ok (okResp req.id initializeResult)
      else if m = str "tools/list" then
        Except.ok (okResp req.id (Json.jobj [(str "tools", Json.jarr env.toolDefs)]))
      else if m = str "tools/call" then
        toolsCall env req
      else if m = str "resources/list" then
        Except.ok (okResp req.id resourcesListResult)
      else if m = str "resources/read" then
        resourcesRead env req
      else if m = str "prompts/list" then
        Except.ok (okResp req.id promptsListResult)
      else if m = str "prompts/get" then
        promptsGet env req
      else if m ∈ registeredTools then
        match env.callTool m (if jTruthy req.params then req.params else Json.jobj []) with
        | Except.ok r => Except.ok (okResp Json.jnull r)
        | Except.error e => Except.error e
      else
        Except.ok (errResp req.id (-32601) (str "Method not found: " ++ m) none)
  | other =>
      Except.ok (errResp req.id (-32601)
        (str "Method not found: " ++ pyShow other) none)

/-- The decoded input line: the stdlib json.loads either raises (malformed)
or yields a JSON value. -/
inductive ParsedInput where
  | malformed (msg : Str) : ParsedInput
  | value (j : Json) : ParsedInput

/-- handle_request: parse error response on malformed input (id null); no
response for a valid non-object value or for a notification (id absent or
null); otherwise dispatch, catching any raised exception as an
InternalError response with id null. -/
def handleRequest (env : RpcEnv) (input : ParsedInput) : Option JResp :=
  match input with
  | ParsedInput.malformed msg =>
      some (errResp Json.jnull (-32700) (str "Parse error") (some msg))
  | ParsedInput.value j =>
      match parseReq j with
      | none => none
      | some req =>
          match req.id with
          | Json.jnull => none
          | _ =>
              match handleMethod env req with
              | Except.ok resp => some resp
              | Except.error e =>
                  some (errResp Json.jnull (-32603) (str "Internal error") (some e))

/-- A concrete environment whose search_users handler succeeds. -/
def bugEnv : RpcEnv :=
  { callTool := fun _ _ => Except.ok (Json.jobj [(str "success", Json.jbool true)]),
    toolDefs := [], sourcesResource := Json.jobj [], tablesResource := Json.jobj [],
    dumps := fun _ => [], queryHelp := Json.jobj [] }

/-- The failing input for C1: a well-formed request with id 7 whose method
is the registered tool name search_users (the shorthand dispatch path). -/
def bugJson : Json :=
  Json.jobj [(str "jsonrpc", Json.jstr (str "2.0")),
             (str "id", Json.jnum 7),
             (str "method", Json.jstr (str "search_users")),
             (str "params", Json.jobj [(str "query", Json.jstr (str "x"))])]

/-- C1 is violated by the code: on the shorthand path the engine emits one
response, but its id is null (the _call_tool default) instead of the request
id 7 — _handle_method returns the _call_tool response without copying
request.id, unlike the tools/call path. -/
theorem rpc_shorthand_id_bug :
    handleRequest bugEnv (ParsedInput.value bugJson) =
      some (okResp Json.jnull (Json.jobj [(str "success", Json.jbool true)]))
    ∧ (parseReq bugJson).map JReq.id = some (Json.jnum 7)
    ∧ Json.jnum 7 ≠ Json.jnull := by
  refine ⟨rfl, rfl, ?_⟩
  intro h
  exact Json.noConfusion h



/-! ## Multi-source user search (src/server/app/services/unified_search.py):
rows, values, deduplication -/

/-- Python str() of a row value as it appears in f-strings and comparisons
(list repr modelled for quote-free strings). -/
def pyStr : Val → Str
  | Val.vnone => str "None"
  | Val.vint n => intRepr n
  | Val.vstr s => s
  | Val.vlist xs => str "[" ++ joinSep (str ", ") (xs.map (fun s => sq :: (s ++ [sq]))) ++ str "]"

/-- Python truthiness of a row value. -/
def valTruthy : Val → Bool
  | Val.vnone => false
  | Val.vint n => n != 0
  | Val.vstr s => !s.isEmpty
  | Val.vlist xs => !xs.isEmpty

/-- Membership in the Python tuple (None, "", "nan") used by the dedup
fill-in rule (equality against other types is False in Python). -/
def isNoneOrEmpty (v : Val) : Bool :=
  v = Val.vnone || v = Val.vstr [] || v = Val.vstr (str "nan")

/-- The string carried by a value (sources are strings in the source; other
shapes fall back to str()). -/
def valAsStr : Val → Str
  | Val.vstr s => s
  | v => pyStr v

/-- Association-list get: Python dict access (unique keys; the first
binding wins). -/
def alGet {α : Type} : List (Str × α) → Str → Option α
  | [], _ => none
  | (k2, v) :: t, k => if k2 = k then some v else alGet t k

/-- Association-list assignment: replace in place, else append (Python dict
assignment keeps the position of an existing key). -/
def alSet {α : Type} : List (Str × α) → Str → α → List (Str × α)
  | [], k, v => [(k, v)]
  | (k2, v2) :: t, k, v => if k2 = k then (k2, v) :: t else (k2, v2) :: alSet t k v

/-- Association-list removal (dict.pop with default). -/
def alRemove {α : Type} : List (Str × α) → Str → List (Str × α)
  | [], _ => []
  | (k2, v2) :: t, k => if k2 = k then t else (k2, v2) :: alRemove t k

/-- r.get(k) as a Python value (None when absent). -/
def rowGetV (r : Row) (k : Str) : Val := (alGet r k).getD Val.vnone

/-- The dedup key of dedupe_rows: the stripped lower-cased email when
non-empty, else name::id (f-string interpolation of the raw id value). -/
def dedupKey (r : Row) : Str :=
  let emailRaw := rowGetV r (str "email")
  let email := lowerL (pyStripL (pyStr (if valTruthy emailRaw then emailRaw else Val.vstr [])))
  if email ≠ [] then email
  else
    let nameRaw := rowGetV r (str "name")
    lowerL (pyStr (if valTruthy nameRaw then nameRaw else Val.vstr [])) ++
      str "::" ++ pyStr (rowGetV r (str "id"))

/-- The sources list of a merged entry (cur.get("sources", []); merged
entries always carry a list here). -/
def sourcesOf (r : Row) : List Str :=
  match alGet r (str "sources") with
  | some (Val.vlist xs) => xs
  | _ => []

/-- One iteration of the fill-in loop of dedupe_rows: for each item of the
incoming row except source, fill the merged entry when its current value is
None/empty/nan and the incoming one is not. -/
def fillFold : Row → Row → Row
  | cur, [] => cur
  | cur, (k, v) :: t =>
      let cur2 :=
        if k = str "source" then cur
        else if isNoneOrEmpty (rowGetV cur k) = true ∧ isNoneOrEmpty v = false then
          alSet cur k v
        else cur
      fillFold cur2 t

/-- One iteration of the main loop of dedupe_rows over the merged mapping. -/
def dedupeStep (merged : List (Str × Row)) (r : Row) : List (Str × Row) :=
  let key := dedupKey r
  match alGet merged key with
  | none =>
      let srcV := rowGetV r (str "source")
      let rr := alSet r (str "sources")
        (if valTruthy srcV then Val.vlist [valAsStr srcV] else Val.vlist [])
      let rr2 := alRemove rr (str "source")
      alSet merged key rr2
  | some cur =>
      let srcV := rowGetV r (str "source")
      let cur1 :=
        if valTruthy srcV = true ∧ valAsStr srcV ∉ sourcesOf cur then
          alSet cur (str "sources") (Val.vlist (sourcesOf cur ++ [valAsStr srcV]))
        else cur
      alSet merged key (fillFold cur1 r)

/-- The merged mapping built by dedupe_rows. -/
def dedupeCore (rows : List Row) : List (Str × Row) := rows.foldl dedupeStep []

/-- Final serialisation of the sources list as a comma-separated string
(falsy entries dropped). -/
def finalizeRow (r : Row) : Row :=
  let xs := match alGet r (str "sources") with
    | some (Val.vlist xs) => xs
    | _ => []
  alSet r (str "sources") (Val.vstr (joinSep (str ", ") (xs.filter (fun s => !s.isEmpty))))

/-- dedupe_rows. -/
def dedupeRows (rows : List Row) : List Row :=
  (dedupeCore rows).map (fun kv => finalizeRow kv.2)

theorem alGet_set_same {α : Type} (s : List (Str × α)) (k : Str) (v : α) :
    alGet (alSet s k v) k = some v := by
  induction s with
  | nil => simp [alSet, alGet]
  | cons h t ih =>
    obtain ⟨k2, v2⟩ := h
    by_cases he : k2 = k
    · simp [alSet, alGet, he]
    · simp [alSet, alGet, he, ih]

theorem alGet_set_ne {α : Type} (s : List (Str × α)) (k k2 : Str) (v : α)
    (h : k2 ≠ k) : alGet (alSet s k v) k2 = alGet s k2 := by
  induction s with
  | nil =>
    simp only [alSet, alGet]
    rw [if_neg (fun hc : k = k2 => h hc.symm)]
  | cons hd t ih =>
    obtain ⟨k3, v3⟩ := hd
    simp only [alSet]
    by_cases he : k3 = k
    · rw [if_pos he]
      simp only [alGet]
      have hne : ¬ k3 = k2 := fun hc => h (hc ▸ he)
      rw [if_neg hne, if_neg hne]
    · rw [if_neg he]
      simp only [alGet]
      by_cases he2 : k3 = k2
      · rw [if_pos he2, if_pos he2]
      · rw [if_neg he2, if_neg he2]
        exact ih

theorem alSet_get_same {α : Type} {s : List (Str × α)} {k : Str} {v : α}
    (h : alGet s k = some v) : alSet s k v = s := by
  induction s with
  | nil => simp [alGet] at h
  | cons hd t ih =>
    obtain ⟨k2, v2⟩ := hd
    by_cases he : k2 = k
    · simp only [alGet, if_pos he] at h
      cases h
      simp [alSet, he]
    · simp only [alGet, if_neg he] at h
      simp [alSet, he, ih h]

theorem alGet_remove_ne {α : Type} (s : List (Str × α)) (k k0 : Str)
    (h : k ≠ k0) : alGet (alRemove s k0) k = alGet s k := by
  induction s with
  | nil => simp [alRemove]
  | cons hd t ih =>
    obtain ⟨k2, v2⟩ := hd
    simp only [alRemove]
    by_cases he : k2 = k0
    · rw [if_pos he]
      simp only [alGet]
      have hne : ¬ k2 = k := fun hc => h ((hc ▸ he : k = k0))
      rw [if_neg hne]
    · rw [if_neg he]
      simp only [alGet]
      by_cases he2 : k2 = k
      · rw [if_pos he2, if_pos he2]
      · rw [if_neg he2, if_neg he2]
        exact ih

theorem nodup_alGet {α : Type} {r : List (Str × α)}
    (hnd : (r.map Prod.fst).Nodup) {k : Str} {v : α} (h : (k, v) ∈ r) :
    alGet r k = some v := by
  induction r with
  | nil => exact absurd h (List.not_mem_nil _)
  | cons hd t ih =>
    obtain ⟨k2, v2⟩ := hd
    rw [List.map_cons, List.nodup_cons] at hnd
    rcases List.mem_cons.mp h with heq | hmem
    · have hk : k = k2 := by cases heq; rfl
      have hv : v = v2 := by cases heq; rfl
      subst hk
      subst hv
      simp [alGet]
    · have hne : k2 ≠ k := by
        intro hc
        apply hnd.1
        rw [hc]
        exact List.mem_map.mpr ⟨(k, v), hmem, rfl⟩
      simp only [alGet, if_neg hne]
      exact ih hnd.2 hmem

theorem rowGetV_set_same (r : Row) (k : Str) (v : Val) :
    rowGetV (alSet r k v) k = v := by
  simp [rowGetV, alGet_set_same]

theorem rowGetV_set_ne (r : Row) (k k2 : Str) (v : Val) (h : k2 ≠ k) :
    rowGetV (alSet r k v) k2 = rowGetV r k2 := by
  simp [rowGetV, alGet_set_ne r k k2 v h]

theorem vlist_not_noneish (xs : List Str) : isNoneOrEmpty (Val.vlist xs) = false := by
  simp [isNoneOrEmpty]

/-- The fill loop only writes non-empty values, so a non-empty field stays
non-empty. -/
theorem fillFold_mono : ∀ (t c : Row) (k : Str),
    isNoneOrEmpty (rowGetV c k) = false →
    isNoneOrEmpty (rowGetV (fillFold c t) k) = false := by
  intro t
  induction t with
  | nil => intro c k h; exact h
  | cons p t ih =>
    obtain ⟨k2, v2⟩ := p
    intro c k h
    simp only [fillFold]
    apply ih
    by_cases h1 : k2 = str "source"
    · simp [h1, h]
    · by_cases h2 : isNoneOrEmpty (rowGetV c k2) = true ∧ isNoneOrEmpty v2 = false
      · rw [if_neg h1, if_pos h2]
        by_cases he : k2 = k
        · subst he
          rw [rowGetV_set_same]
          exact h2.2
        · rw [rowGetV_set_ne _ _ _ _ (fun hc => he hc.symm)]
          exact h
      · rw [if_neg h1, if_neg h2]
        exact h

/-- The fill loop cannot touch a field holding a list (lists are never
None/empty/nan). -/
theorem fillFold_keeps_vlist : ∀ (t c : Row) (k : Str) (xs : List Str),
    alGet c k = some (Val.vlist xs) →
    alGet (fillFold c t) k = some (Val.vlist xs) := by
  intro t
  induction t with
  | nil => intro c k xs h; exact h
  | cons p t ih =>
    obtain ⟨k2, v2⟩ := p
    intro c k xs h
    simp only [fillFold]
    apply ih
    by_cases h1 : k2 = str "source"
    · simp [h1, h]
    · by_cases h2 : isNoneOrEmpty (rowGetV c k2) = true ∧ isNoneOrEmpty v2 = false
      · rw [if_neg h1, if_pos h2]
        by_cases he : k2 = k
        · subst he
          rw [rowGetV, h] at h2
          simp [vlist_not_noneish] at h2
        · rw [alGet_set_ne _ _ _ _ (fun hc => he hc.symm)]
          exact h
      · rw [if_neg h1, if_neg h2]
        exact h

/-- After the fill loop runs over a row with distinct keys, every non-empty
non-source field of that row is non-empty in the merged entry. -/
theorem fillFold_post : ∀ (t c : Row), (t.map Prod.fst).Nodup →
    ∀ k v, (k, v) ∈ t → k ≠ str "source" → isNoneOrEmpty v = false →
    isNoneOrEmpty (rowGetV (fillFold c t) k) = false := by
  intro t
  induction t with
  | nil => intro c _ k v h; cases h
  | cons p t ih =>
    obtain ⟨k1, v1⟩ := p
    intro c hnd k v hmem hks hnn
    simp only [fillFold]
    rcases List.mem_cons.mp hmem with heq | hmem2
    · have hk : k = k1 := by cases heq; rfl
      have hv : v = v1 := by cases heq; rfl
      subst hk
      subst hv
      apply fillFold_mono
      rw [if_neg hks]
      by_cases hcur : isNoneOrEmpty (rowGetV c k) = true
      · rw [if_pos ⟨hcur, hnn⟩, rowGetV_set_same]
        exact hnn
      · rw [if_neg (fun hc => hcur hc.1)]
        simpa using hcur
    · exact ih _ (List.nodup_cons.mp hnd).2 k v hmem2 hks hnn

/-- If every item of the row is already reflected in the entry, the fill
loop is the identity. -/
theorem fillFold_id : ∀ (t c : Row),
    (∀ k v, (k, v) ∈ t → k ≠ str "source" → isNoneOrEmpty v = false →
      isNoneOrEmpty (rowGetV c k) = false) →
    fillFold c t = c := by
  intro t
  induction t with
  | nil => intro c _; rfl
  | cons p t ih =>
    obtain ⟨k1, v1⟩ := p
    intro c h
    simp only [fillFold]
    have hstep : (if k1 = str "source" then c
        else if isNoneOrEmpty (rowGetV c k1) = true ∧ isNoneOrEmpty v1 = false then
          alSet c k1 v1
        else c) = c := by
      by_cases h1 : k1 = str "source"
      · rw [if_pos h1]
      · rw [if_neg h1]
        by_cases h2 : isNoneOrEmpty v1 = false
        · have hfa : isNoneOrEmpty (rowGetV c k1) = false :=
            h k1 v1 (List.mem_cons_self _ _) h1 h2
          rw [if_neg (fun hc => by rw [hfa] at hc; exact Bool.noConfusion hc.1)]
        · rw [if_neg (fun hc => h2 hc.2)]
    rw [hstep]
    exact ih c (fun k v hm => h k v (List.mem_cons_of_mem _ hm))

theorem mem_sourcesOf {cur : Row} {a : Str} (h : a ∈ sourcesOf cur) :
    ∃ xs, alGet cur (str "sources") = some (Val.vlist xs) ∧ a ∈ xs := by
  unfold sourcesOf at h
  cases halg : alGet cur (str "sources") with
  | none =>
    rw [halg] at h
    exact absurd h (List.not_mem_nil _)
  | some v =>
    rw [halg] at h
    cases v with
    | vlist xs => exact ⟨xs, rfl, h⟩
    | vnone => exact absurd h (List.not_mem_nil _)
    | vint n => exact absurd h (List.not_mem_nil _)
    | vstr s2 => exact absurd h (List.not_mem_nil _)

theorem sourcesOf_eq {cur : Row} {xs : List Str}
    (h : alGet cur (str "sources") = some (Val.vlist xs)) : sourcesOf cur = xs := by
  unfold sourcesOf
  rw [h]

theorem dedupeStep_none (s : List (Str × Row)) (r : Row)
    (h : alGet s (dedupKey r) = none) :
    dedupeStep s r = alSet s (dedupKey r)
      (alRemove (alSet r (str "sources")
        (if valTruthy (rowGetV r (str "source")) then
          Val.vlist [valAsStr (rowGetV r (str "source"))]
        else Val.vlist [])) (str "source")) := by
  simp only [dedupeStep, h]

theorem dedupeStep_some (s : List (Str × Row)) (r : Row) (cur : Row)
    (h : alGet s (dedupKey r) = some cur) :
    dedupeStep s r = alSet s (dedupKey r) (fillFold
      (if valTruthy (rowGetV r (str "source")) = true ∧
          valAsStr (rowGetV r (str "source")) ∉ sourcesOf cur then
        alSet cur (str "sources")
          (Val.vlist (sourcesOf cur ++ [valAsStr (rowGetV r (str "source"))]))
      else cur) r) := by
  simp only [dedupeStep, h]

/-- A row already merged into the mapping: its key is present, its source
recorded, and its non-empty fields non-empty in the entry. -/
def Absorbed (s : List (Str × Row)) (r : Row) : Prop :=
  ∃ cur, alGet s (dedupKey r) = some cur ∧
    (valTruthy (rowGetV r (str "source")) = true →
      valAsStr (rowGetV r (str "source")) ∈ sourcesOf cur) ∧
    (∀ k v, (k, v) ∈ r → k ≠ str "source" → isNoneOrEmpty v = false →
      isNoneOrEmpty (rowGetV cur k) = false)

/-- Processing a row leaves it absorbed in the merged mapping. -/
theorem absorbed_step_self (s : List (Str × Row)) (r : Row)
    (hwf : (r.map Prod.fst).Nodup) : Absorbed (dedupeStep s r) r := by
  cases hget : alGet s (dedupKey r) with
  | none =>
    rw [dedupeStep_none s r hget]
    refine ⟨_, alGet_set_same _ _ _, ?_, ?_⟩
    · intro htr
      unfold sourcesOf
      rw [alGet_remove_ne _ _ _ (by decide), alGet_set_same, if_pos htr]
      simp
    · intro k v hkv hks hnn
      unfold rowGetV
      rw [alGet_remove_ne _ _ _ hks]
      by_cases hsrcs : k = str "sources"
      · subst hsrcs
        rw [alGet_set_same]
        show isNoneOrEmpty (if valTruthy (rowGetV r (str "source")) then
          Val.vlist [valAsStr (rowGetV r (str "source"))] else Val.vlist []) = false
        split
        · exact vlist_not_noneish _
        · exact vlist_not_noneish _
      · rw [alGet_set_ne _ _ _ _ hsrcs, nodup_alGet hwf hkv]
        exact hnn
  | some cur =>
    rw [dedupeStep_some s r cur hget]
    refine ⟨_, alGet_set_same _ _ _, ?_, ?_⟩
    · intro htr
      have hc1 : ∃ xs, alGet (if valTruthy (rowGetV r (str "source")) = true ∧
          valAsStr (rowGetV r (str "source")) ∉ sourcesOf cur then
            alSet cur (str "sources")
              (Val.vlist (sourcesOf cur ++ [valAsStr (rowGetV r (str "source"))]))
          else cur) (str "sources") = some (Val.vlist xs) ∧
          valAsStr (rowGetV r (str "source")) ∈ xs := by
        by_cases hmem : valAsStr (rowGetV r (str "source")) ∈ sourcesOf cur
        · rw [if_neg (fun hc => hc.2 hmem)]
          exact mem_sourcesOf hmem
        · rw [if_pos ⟨htr, hmem⟩]
          exact ⟨_, alGet_set_same _ _ _, by simp⟩
      obtain ⟨xs, hbind, hmemxs⟩ := hc1
      have hkeep := fillFold_keeps_vlist r _ _ _ hbind
      rw [sourcesOf_eq hkeep]
      exact hmemxs
    · intro k v hkv hks hnn
      exact fillFold_post r _ hwf k v hkv hks hnn

/-- Absorption is preserved by processing any further row. -/
theorem absorbed_step_preserve (s : List (Str × Row)) (r r2 : Row)
    (h : Absorbed s r) : Absorbed (dedupeStep s r2) r := by
  obtain ⟨cur, hget, hsrc, hfill⟩ := h
  by_cases hk : dedupKey r2 = dedupKey r
  · have hget2 : alGet s (dedupKey r2) = some cur := by rw [hk]; exact hget
    rw [dedupeStep_some s r2 cur hget2]
    refine ⟨_, by rw [hk]; exact alGet_set_same _ _ _, ?_, ?_⟩
    · intro htr
      obtain ⟨xs, hbind, hmemxs⟩ := mem_sourcesOf (hsrc htr)
      have hc1 : ∃ ys, alGet (if valTruthy (rowGetV r2 (str "source")) = true ∧
          valAsStr (rowGetV r2 (str "source")) ∉ sourcesOf cur then
            alSet cur (str "sources")
              (Val.vlist (sourcesOf cur ++ [valAsStr (rowGetV r2 (str "source"))]))
          else cur) (str "sources") = some (Val.vlist ys) ∧
          valAsStr (rowGetV r (str "source")) ∈ ys := by
        by_cases hcond : valTruthy (rowGetV r2 (str "source")) = true ∧
            valAsStr (rowGetV r2 (str "source")) ∉ sourcesOf cur
        · rw [if_pos hcond]
          refine ⟨sourcesOf cur ++ [valAsStr (rowGetV r2 (str "source"))],
            alGet_set_same _ _ _, ?_⟩
          exact List.mem_append_left _ (hsrc htr)
        · rw [if_neg hcond]
          exact ⟨xs, hbind, hmemxs⟩
      obtain ⟨ys, hbind2, hmemys⟩ := hc1
      have hkeep := fillFold_keeps_vlist r2 _ _ _ hbind2
      rw [sourcesOf_eq hkeep]
      exact hmemys
    · intro k v hkv hks hnn
      have h0 : isNoneOrEmpty (rowGetV cur k) = false := hfill k v hkv hks hnn
      have h1 : isNoneOrEmpty (rowGetV (if valTruthy (rowGetV r2 (str "source")) = true ∧
          valAsStr (rowGetV r2 (str "source")) ∉ sourcesOf cur then
            alSet cur (str "sources")
              (Val.vlist (sourcesOf cur ++ [valAsStr (rowGetV r2 (str "source"))]))
          else cur) k) = false := by
        by_cases hcond : valTruthy (rowGetV r2 (str "source")) = true ∧
            valAsStr (rowGetV r2 (str "source")) ∉ sourcesOf cur
        · rw [if_pos hcond]
          by_cases hsk : k = str "sources"
          · subst hsk
            rw [rowGetV_set_same]
            exact vlist_not_noneish _
          · rw [rowGetV_set_ne _ _ _ _ hsk]
            exact h0
        · rw [if_neg hcond]
          exact h0
      exact fillFold_mono r2 _ k h1
  · cases hget2 : alGet s (dedupKey r2) with
    | none =>
      rw [dedupeStep_none s r2 hget2]
      exact ⟨cur, by rw [alGet_set_ne _ _ _ _ (fun hc => hk hc.symm)]; exact hget,
        hsrc, hfill⟩
    | some cur2 =>
      rw [dedupeStep_some s r2 cur2 hget2]
      exact ⟨cur, by rw [alGet_set_ne _ _ _ _ (fun hc => hk hc.symm)]; exact hget,
        hsrc, hfill⟩

theorem absorbed_foldl (l : List Row) : ∀ (s : List (Str × Row)) (r : Row),
    Absorbed s r → Absorbed (l.foldl dedupeStep s) r := by
  induction l with
  | nil => intro s r h; exact h
  | cons a t ih => intro s r h; exact ih _ _ (absorbed_step_preserve s r a h)

theorem all_absorbed : ∀ (l : List Row) (s : List (Str × Row)),
    (∀ r ∈ l, (r.map Prod.fst).Nodup) →
    ∀ r ∈ l, Absorbed (l.foldl dedupeStep s) r := by
  intro l
  induction l with
  | nil => intro s _ r hr; exact absurd hr (List.not_mem_nil _)
  | cons a t ih =>
    intro s hwf r hr
    rcases List.mem_cons.mp hr with rfl | hmem
    · rw [List.foldl_cons]
      exact absorbed_foldl t _ _ (absorbed_step_self s r (hwf r hr))
    · rw [List.foldl_cons]
      exact ih _ (fun r2 h2 => hwf r2 (List.mem_cons_of_mem _ h2)) r hmem

/-- Processing an already-absorbed row is the identity on the mapping. -/
theorem dedupeStep_absorbed (s : List (Str × Row)) (r : Row)
    (h : Absorbed s r) : dedupeStep s r = s := by
  obtain ⟨cur, hget, hsrc, hfill⟩ := h
  rw [dedupeStep_some s r cur hget]
  rw [if_neg (fun hc => hc.2 (hsrc hc.1))]
  rw [fillFold_id r cur hfill]
  exact alSet_get_same hget

theorem foldl_fixed {α β : Type} (f : β → α → β) :
    ∀ (l : List α) (s : β), (∀ a ∈ l, f s a = s) → l.foldl f s = s := by
  intro l
  induction l with
  | nil => intro s _; rfl
  | cons a t ih =>
    intro s h
    rw [List.foldl_cons, h a (List.mem_cons_self _ _)]
    exact ih s (fun x hx => h x (List.mem_cons_of_mem _ hx))

/-- C8: deduplication is idempotent over concatenation — in fact exactly:
dedupe_rows(rows ++ rows) equals dedupe_rows(rows) as a list, which implies
equality up to ordering within each sources field.  Rows are Python dicts,
so their key lists are duplicate-free. -/
theorem dedupe_idempotent (rows : List Row)
    (hwf : ∀ r ∈ rows, (r.map Prod.fst).Nodup) :
    dedupeRows (rows ++ rows) = dedupeRows rows := by
  unfold dedupeRows dedupeCore
  rw [List.foldl_append]
  congr 1
  apply foldl_fixed
  intro r hr
  exact dedupeStep_absorbed _ _ (all_absorbed rows [] hwf r hr)

/-- C8 witness: the idempotence theorem applied to two concrete rows sharing
an email key. -/
theorem dedupe_idempotent_witness :
    dedupeRows
        ([[(str "email", Val.vstr (str "a@b.c")), (str "source", Val.vstr (str "sql"))],
          [(str "email", Val.vstr (str "a@b.c")), (str "name", Val.vstr (str "bob")),
           (str "source", Val.vstr (str "api"))]] ++
         [[(str "email", Val.vstr (str "a@b.c")), (str "source", Val.vstr (str "sql"))],
          [(str "email", Val.vstr (str "a@b.c")), (str "name", Val.vstr (str "bob")),
           (str "source", Val.vstr (str "api"))]]) =
      dedupeRows
        [[(str "email", Val.vstr (str "a@b.c")), (str "source", Val.vstr (str "sql"))],
         [(str "email", Val.vstr (str "a@b.c")), (str "name", Val.vstr (str "bob")),
          (str "source", Val.vstr (str "api"))]] :=
  dedupe_idempotent _ (by decide)

/-! ## Predicate DNF: local evaluator (row_matches_dnf) and compiler
(_build_sql_where_from_dnf) with the SQLite semantics of the emitted WHERE -/

/-- The value carried by a condition: the parser produces ints (id), strings
(all other eq/like conditions) and ISO-date pairs (ranges). -/
inductive CondVal where
  | cint (n : Int) : CondVal
  | cstr (s : Str) : CondVal
  | crange (a b : Str) : CondVal
deriving DecidableEq

/-- A condition: field tag, operator tag, value (the Cond dataclass). -/
structure Cond where
  field : Str
  op : Str
  value : CondVal
deriving DecidableEq

/-- OR of ANDs. -/
abbrev DNF := List (List Cond)

/-- str(c.value) (tuple repr modelled for quote-free strings; only eq/like
conditions interpolate their value). -/
def condValStr : CondVal → Str
  | CondVal.cint n => intRepr n
  | CondVal.cstr s => s
  | CondVal.crange a b =>
      str "(" ++ (sq :: (a ++ [sq])) ++ str ", " ++ (sq :: (b ++ [sq])) ++ str ")"

/-- int(s) for a decimal string with optional sign and surrounding blanks;
None models the raised ValueError. -/
def parseDigits (s : Str) : Option Nat :=
  if s ≠ [] ∧ s.all (fun c => c.isDigit) then
    some (s.foldl (fun a c => a * 10 + (c.toNat - 48)) 0)
  else none

def pyParseInt (s : Str) : Option Int :=
  match pyStripL s with
  | [] => none
  | c :: rest =>
      if c = '-' then (parseDigits rest).map (fun n => -(n : Int))
      else if c = '+' then (parseDigits rest).map (fun n => (n : Int))
      else (parseDigits (c :: rest)).map (fun n => (n : Int))

/-- int(val) on a row value. -/
def pyIntOfVal : Val → Option Int
  | Val.vint n => some n
  | Val.vstr s => pyParseInt s
  | _ => none

/-- int(c.value) on a condition value. -/
def pyIntOfCondVal : CondVal → Option Int
  | CondVal.cint n => some n
  | CondVal.cstr s => pyParseInt s
  | CondVal.crange _ _ => none

/-- The lowered-keys view built at the top of row_matches_dnf:
a dict comprehension keyed by str(k).lower() (an existing key keeps its
position, a later duplicate overwrites the value). -/
def lowerKeysRow (row : Row) : Row :=
  row.foldl (fun m kv => alSet m (lowerL kv.1) kv.2) []

/-- match_cond of row_matches_dnf, on the lowered-keys view r. -/
def matchCond (r : Row) (c : Cond) : Bool :=
  if c.op = str "range" ∧ c.field = str "signup_date" then
    match c.value with
    | CondVal.crange a b =>
        let v := rowGetV r (str "signup_date")
        if valTruthy v = false then false
        else !(strLtB (pyStr v) a) && strLtB (pyStr v) b
    | _ => false
  else if c.field = str "any" ∧ c.op = str "like" then
    let needle := lowerL (condValStr c.value)
    [str "id", str "name", str "email", str "region", str "signup_date"].any
      (fun key =>
        let val := rowGetV r key
        if val = Val.vnone then false
        else containsL needle (lowerL (pyStr val)))
  else
    let val := rowGetV r c.field
    if val = Val.vnone then false
    else if c.op = str "eq" then
      if c.field = str "id" then
        match pyIntOfVal val, pyIntOfCondVal c.value with
        | some a, some b => decide (a = b)
        | _, _ => false
      else decide (lowerL (pyStr val) = lowerL (condValStr c.value))
    else if c.op = str "like" then
      containsL (lowerL (condValStr c.value)) (lowerL (pyStr val))
    else false

/-- row_matches_dnf: OR of ANDs over the lowered-keys view. -/
def rowMatchesDnf (row : Row) (dnf : DNF) : Bool :=
  let r := lowerKeysRow row
  dnf.any (fun clause => clause.all (fun c => matchCond r c))

/-- The fragment text and positional parameters emitted for one condition
by _build_sql_where_from_dnf.  A condition matching no branch emits nothing
(the source appends to neither list); an unparsable id would raise in the
source (excluded by well-formed predicates, modelled by a default). -/
def condFragments (c : Cond) : List Str × List Val :=
  if c.op = str "range" ∧ c.field = str "signup_date" then
    match c.value with
    | CondVal.crange a b =>
        ([str "(signup_date >= ? AND signup_date < ?)"], [Val.vstr a, Val.vstr b])
    | _ => ([], [])
  else if c.field = str "any" ∧ c.op = str "like" then
    let like := str "%" ++ condValStr c.value ++ str "%"
    ([str "(CAST(id AS TEXT) LIKE ? OR lower(name) LIKE lower(?) OR " ++
      str "lower(email) LIKE lower(?) OR lower(region) LIKE lower(?) OR " ++
      str "signup_date LIKE ?)"],
     [Val.vstr like, Val.vstr like, Val.vstr like, Val.vstr like, Val.vstr like])
  else if c.op = str "eq" then
    if c.field = str "id" then
      ([str "id = ?"], [Val.vint ((pyIntOfCondVal c.value).getD 0)])
    else
      ([str "lower(" ++ c.field ++ str ") = lower(?)"],
       [Val.vstr (condValStr c.value)])
  else if c.op = str "like" then
    ([str "lower(" ++ c.field ++ str ") LIKE lower(?)"],
     [Val.vstr (str "%" ++ condValStr c.value ++ str "%")])
  else ([], [])

/-- _build_sql_where_from_dnf: parenthesised ANDed fragments ORed together,
parameters in traversal order; 1=1 when there are no clauses. -/
def buildSqlWhereFromDnf (dnf : DNF) : Str × List Val :=
  let clauseParts := dnf.map (fun clause =>
    let parts := clause.map condFragments
    (str "(" ++ joinSep (str " AND ") (parts.map Prod.fst).flatten ++ str ")",
     (parts.map Prod.snd).flatten))
  if dnf = [] then (str "1=1", [])
  else (joinSep (str " OR ") (clauseParts.map Prod.fst),
        (clauseParts.map Prod.snd).flatten)

/-- A row of the canonical users projection fetched by search_sql_users
(id int, the rest text, any of them possibly NULL). -/
structure UserRow where
  id : Option Int
  name : Option Str
  email : Option Str
  region : Option Str
  signup_date : Option Str
deriving DecidableEq

def optValS : Option Str → Val
  | some s => Val.vstr s
  | none => Val.vnone

def optValI : Option Int → Val
  | some n => Val.vint n
  | none => Val.vnone

/-- The canonical row as the Python dict the evaluator receives. -/
def toRow (u : UserRow) : Row :=
  [(str "id", optValI u.id),
   (str "name", optValS u.name),
   (str "email", optValS u.email),
   (str "region", optValS u.region),
   (str "signup_date", optValS u.signup_date)]

/-- The text column of the users projection named by a (well-formed)
condition field tag. -/
def fieldOf (u : UserRow) : Str → Option Str :=
  fun f =>
    if f = str "name" then u.name
    else if f = str "email" then u.email
    else if f = str "region" then u.region
    else if f = str "signup_date" then u.signup_date
    else none

/-- The SQLite LIKE matcher: percent matches any sequence, underscore any
single character, other characters match ASCII-case-insensitively (the
default SQLite behaviour, no ESCAPE). -/
def likeChars : List Char → List Char → Bool
  | [], [] => true
  | [], _ :: _ => false
  | p0 :: p, s =>
      if p0 = '%' then
        likeChars p s || (match s with | [] => false | _ :: t => likeChars (p0 :: p) t)
      else
        match s with
        | [] => false
        | d :: t => (if p0 = '_' then true else decide (asciiLower p0 = asciiLower d))
            && likeChars p t
termination_by p s => (s.length, p.length)

def sqliteLike (pat s : Str) : Bool := likeChars pat s

/-- Three-valued SQL AND (NULL = none). -/
def sql3And : Option Bool → Option Bool → Option Bool
  | some false, _ => some false
  | _, some false => some false
  | some true, some true => some true
  | _, _ => none

/-- Three-valued SQL OR. -/
def sql3Or : Option Bool → Option Bool → Option Bool
  | some true, _ => some true
  | _, some true => some true
  | some false, some false => some false
  | _, _ => none

/-- SQLite evaluation (three-valued; none is NULL) of the fragment that
condFragments emits for c, on the canonical users row, with the positional
parameters bound: string comparison is BINARY, lower() and LIKE fold ASCII
case, a comparison or LIKE over a NULL column is NULL.  Meaningful for
well-formed conditions (the ones for which a fragment is emitted and the
named column exists). -/
def sqliteCondEval (u : UserRow) (c : Cond) : Option Bool :=
  if c.op = str "range" ∧ c.field = str "signup_date" then
    match c.value with
    | CondVal.crange a b =>
        match u.signup_date with
        | none => none
        | some v => some (!(strLtB v a) && strLtB v b)
    | _ => none
  else if c.field = str "any" ∧ c.op = str "like" then
    let like := str "%" ++ condValStr c.value ++ str "%"
    sql3Or (match u.id with | none => none | some n => some (sqliteLike like (intRepr n)))
      (sql3Or (match u.name with
        | none => none
        | some s => some (sqliteLike (lowerL like) (lowerL s)))
        (sql3Or (match u.email with
          | none => none
          | some s => some (sqliteLike (lowerL like) (lowerL s)))
          (sql3Or (match u.region with
            | none => none
            | some s => some (sqliteLike (lowerL like) (lowerL s)))
            (match u.signup_date with
              | none => none
              | some s => some (sqliteLike like s)))))
  else if c.op = str "eq" then
    if c.field = str "id" then
      match u.id with
      | none => none
      | some n => some (decide (n = (pyIntOfCondVal c.value).getD 0))
    else
      match fieldOf u c.field with
      | none => none
      | some v => some (decide (lowerL v = lowerL (condValStr c.value)))
  else if c.op = str "like" then
    match fieldOf u c.field with
    | none => none
    | some v =>
        some (sqliteLike (lowerL (str "%" ++ condValStr c.value ++ str "%")) (lowerL v))
  else none

/-- SQLite evaluation of one parenthesised ANDed clause. -/
def sqliteClauseEval (u : UserRow) (clause : List Cond) : Option Bool :=
  clause.foldl (fun acc c => sql3And acc (sqliteCondEval u c)) (some true)

/-- A WHERE clause matches a row when it evaluates to true (NULL and false
both reject); the empty DNF compiles to 1=1, which matches every row. -/
def sqliteWhereMatches (dnf : DNF) (u : UserRow) : Bool :=
  if dnf = [] then true
  else (dnf.foldl (fun acc cl => sql3Or acc (sqliteClauseEval u cl)) (some false))
    = some true

/-- ASCII-only string: on these Python str.lower agrees with the ASCII
folding of SQLite lower()/LIKE that the embedding uses for both sides. -/
def asciiStr (s : Str) : Bool := s.all (fun c => decide (c.toNat < 128))

/-- Free of the SQL LIKE wildcards. -/
def noWild (s : Str) : Bool := s.all (fun c => !(c = '%') && !(c = '_'))

/-- Well-formed conditions: the shapes the parser can produce, with ASCII
values, wildcard-free like-values, and non-empty range starts. -/
def WfCond (c : Cond) : Prop :=
  (c.field = str "id" ∧ c.op = str "eq" ∧ ∃ n, c.value = CondVal.cint n) ∨
  (c.field ∈ [str "name", str "email", str "region", str "signup_date"] ∧
    c.op = str "eq" ∧ ∃ s, c.value = CondVal.cstr s ∧ asciiStr s = true) ∨
  (c.field ∈ [str "name", str "email", str "region", str "signup_date"] ∧
    c.op = str "like" ∧
    ∃ s, c.value = CondVal.cstr s ∧ asciiStr s = true ∧ noWild s = true) ∨
  (c.field = str "any" ∧ c.op = str "like" ∧
    ∃ s, c.value = CondVal.cstr s ∧ asciiStr s = true ∧ noWild s = true) ∨
  (c.field = str "signup_date" ∧ c.op = str "range" ∧
    ∃ a b, c.value = CondVal.crange a b ∧ a ≠ [] ∧
      asciiStr a = true ∧ asciiStr b = true)

/-- ASCII-only canonical row. -/
def WfRow (u : UserRow) : Prop :=
  (∀ s, u.name = some s → asciiStr s = true) ∧
  (∀ s, u.email = some s → asciiStr s = true) ∧
  (∀ s, u.region = some s → asciiStr s = true) ∧
  (∀ s, u.signup_date = some s → asciiStr s = true)

theorem charOfNat_toNat {n : Nat} (h : Nat.isValidChar n) :
    (Char.ofNat n).toNat = n := by
  unfold Char.ofNat
  rw [dif_pos h]
  unfold Char.ofNatAux Char.toNat
  simp [UInt32.toNat]

theorem asciiLower_idem (c : Char) : asciiLower (asciiLower c) = asciiLower c := by
  by_cases h : 65 ≤ c.toNat ∧ c.toNat ≤ 90
  · have h1 : asciiLower c = Char.ofNat (c.toNat + 32) := by
      unfold asciiLower
      rw [if_pos h]
    have ht : (Char.ofNat (c.toNat + 32)).toNat = c.toNat + 32 :=
      charOfNat_toNat (Or.inl (by omega))
    rw [h1]
    unfold asciiLower
    rw [if_neg (by rw [ht]; omega)]
  · have h1 : asciiLower c = c := by
      unfold asciiLower
      rw [if_neg h]
    rw [h1, h1]

theorem lowerL_idem (s : Str) : lowerL (lowerL s) = lowerL s := by
  unfold lowerL
  rw [List.map_map]
  exact List.map_congr_left (fun c _ => asciiLower_idem c)

theorem noWild_lower {s : Str} (h : noWild s = true) : noWild (lowerL s) = true := by
  unfold noWild lowerL at *
  rw [List.all_map, List.all_eq_true]
  rw [List.all_eq_true] at h
  intro c hc
  have hch := h c hc
  simp only [Bool.and_eq_true, Bool.not_eq_true, decide_eq_false_iff_not] at hch
  simp only [Function.comp_apply, Bool.and_eq_true, Bool.not_eq_true',
    decide_eq_false_iff_not]
  by_cases hup : 65 ≤ c.toNat ∧ c.toNat ≤ 90
  · have h1 : asciiLower c = Char.ofNat (c.toNat + 32) := by
      unfold asciiLower
      rw [if_pos hup]
    have ht : (Char.ofNat (c.toNat + 32)).toNat = c.toNat + 32 :=
      charOfNat_toNat (Or.inl (by omega))
    rw [h1]
    constructor
    · intro hcc
      have h2 := congrArg Char.toNat hcc
      rw [ht] at h2
      have h3 : Char.toNat (Char.ofNat 37) = 37 := rfl
      rw [show ('%' : Char) = Char.ofNat 37 from rfl, h3] at h2
      omega
    · intro hcc
      have h2 := congrArg Char.toNat hcc
      rw [ht] at h2
      have h3 : Char.toNat (Char.ofNat 95) = 95 := rfl
      rw [show ('_' : Char) = Char.ofNat 95 from rfl, h3] at h2
      omega
  · have h1 : asciiLower c = c := by
      unfold asciiLower
      rw [if_neg hup]
    rw [h1]
    simpa using hch

/-- A percent pattern alone matches every string. -/
theorem likeChars_pct_nil : ∀ s : Str, likeChars ['%'] s = true := by
  intro s
  induction s with
  | nil => simp [likeChars]
  | cons d t ih => simp [likeChars, ih]

/-- Case-insensitive literal prefix test. -/
def isPreCI : Str → Str → Bool
  | [], _ => true
  | _ :: _, [] => false
  | c :: p, d :: s => decide (asciiLower c = asciiLower d) && isPreCI p s

theorem isPreCI_nil (n : Str) : isPreCI n [] = n.isEmpty := by
  cases n <;> rfl

/-- A wildcard-free pattern followed by a percent matches exactly the
strings it is a case-insensitive prefix of. -/
theorem likeChars_append_pct {n : Str} (h : noWild n = true) :
    ∀ s, likeChars (n ++ ['%']) s = isPreCI n s := by
  induction n with
  | nil =>
    intro s
    rw [List.nil_append]
    rw [likeChars_pct_nil s]
    rfl
  | cons c n ih =>
    have hch : ¬ c = '%' ∧ ¬ c = '_' := by
      have := (List.all_eq_true.mp h) c (by simp)
      simpa using this
    have hn : noWild n = true := by
      unfold noWild at h ⊢
      rw [List.all_cons, Bool.and_eq_true] at h
      exact h.2
    intro s
    cases s with
    | nil => simp [likeChars, isPreCI, hch.1]
    | cons d t =>
      simp only [List.cons_append, likeChars, isPreCI]
      rw [if_neg hch.1]
      rw [if_neg hch.2]
      rw [ih hn t]

theorem isPreCI_lower (n : Str) : ∀ s : Str,
    isPreCI n s = (lowerL n).isPrefixOf (lowerL s) := by
  induction n with
  | nil => intro s; simp [isPreCI, lowerL, List.isPrefixOf]
  | cons c n ih =>
    intro s
    cases s with
    | nil => simp [isPreCI, lowerL, List.isPrefixOf]
    | cons d t =>
      simp only [isPreCI, lowerL, List.map_cons, List.isPrefixOf]
      rw [← lowerL, ← lowerL, ← ih t]
      by_cases he : asciiLower c = asciiLower d
      · simp [he]
      · simp [he]

/-- The SQLite pattern percent-needle-percent, for a wildcard-free needle,
matches exactly the strings whose lower casing contains the lowered
needle — the local evaluator substring test. -/
theorem likeChars_pct_wrap {n : Str} (h : noWild n = true) :
    ∀ s, likeChars ('%' :: (n ++ ['%'])) s =
      containsL (lowerL n) (lowerL s) := by
  intro s
  induction s with
  | nil =>
    have hstep : likeChars ('%' :: (n ++ ['%'])) [] =
        isPreCI n [] := by
      simp [likeChars, likeChars_append_pct h]
    rw [hstep, isPreCI_nil]
    cases n <;> rfl
  | cons d t ih =>
    have hstep : likeChars ('%' :: (n ++ ['%'])) (d :: t) =
        (isPreCI n (d :: t) || likeChars ('%' :: (n ++ ['%'])) t) := by
      simp [likeChars, likeChars_append_pct h]
    rw [hstep, ih, isPreCI_lower n (d :: t)]
    rfl

theorem lowerKeys_toRow (u : UserRow) : lowerKeysRow (toRow u) = toRow u := rfl

theorem sql3And_true (a b : Option Bool) :
    sql3And a b = some true ↔ (a = some true ∧ b = some true) := by
  cases a with
  | none =>
    cases b with
    | none => simp [sql3And]
    | some bb => cases bb <;> simp [sql3And]
  | some ab =>
    cases ab <;> cases b with
    | none => simp [sql3And]
    | some bb => cases bb <;> simp [sql3And]

theorem sql3Or_true (a b : Option Bool) :
    sql3Or a b = some true ↔ (a = some true ∨ b = some true) := by
  cases a with
  | none =>
    cases b with
    | none => simp [sql3Or]
    | some bb => cases bb <;> simp [sql3Or]
  | some ab =>
    cases ab <;> cases b with
    | none => simp [sql3Or]
    | some bb => cases bb <;> simp [sql3Or]

theorem foldl_sql3And_true {α : Type} (f : α → Option Bool) :
    ∀ (l : List α) (acc : Option Bool),
    ((l.foldl (fun a x => sql3And a (f x)) acc = some true) ↔
      (acc = some true ∧ ∀ x ∈ l, f x = some true)) := by
  intro l
  induction l with
  | nil => intro acc; simp
  | cons x t ih =>
    intro acc
    rw [List.foldl_cons, ih, sql3And_true]
    constructor
    · rintro ⟨⟨h1, h2⟩, h3⟩
      refine ⟨h1, fun y hy => ?_⟩
      rcases List.mem_cons.mp hy with rfl | hy2
      · exact h2
      · exact h3 y hy2
    · rintro ⟨h1, h2⟩
      exact ⟨⟨h1, h2 x (List.mem_cons_self _ _)⟩,
        fun y hy => h2 y (List.mem_cons_of_mem _ hy)⟩

theorem foldl_sql3Or_true {α : Type} (f : α → Option Bool) :
    ∀ (l : List α) (acc : Option Bool),
    ((l.foldl (fun a x => sql3Or a (f x)) acc = some true) ↔
      (acc = some true ∨ ∃ x ∈ l, f x = some true)) := by
  intro l
  induction l with
  | nil => intro acc; simp
  | cons x t ih =>
    intro acc
    rw [List.foldl_cons, ih, sql3Or_true]
    constructor
    · rintro (⟨h1 | h1⟩ | ⟨y, hy, h2⟩)
      · exact Or.inl h1
      · exact Or.inr ⟨x, List.mem_cons_self _ _, h1⟩
      · exact Or.inr ⟨y, List.mem_cons_of_mem _ hy, h2⟩
    · rintro (h1 | ⟨y, hy, h2⟩)
      · exact Or.inl (Or.inl h1)
      · rcases List.mem_cons.mp hy with rfl | hy2
        · exact Or.inl (Or.inr h2)
        · exact Or.inr ⟨y, hy2, h2⟩

theorem pct_plain (s : Str) :
    str "%" ++ s ++ str "%" = '%' :: (s ++ ['%']) := by
  simp [str]

theorem lowerL_pct (s : Str) :
    lowerL ('%' :: (s ++ ['%'])) = '%' :: (lowerL s ++ ['%']) := by
  unfold lowerL
  rw [List.map_cons, List.map_append, List.map_cons, List.map_nil]
  rfl

theorem agree_id_eq (u : UserRow) (n : Int) :
    (sqliteCondEval u ⟨str "id", str "eq", CondVal.cint n⟩ = some true) ↔
      (matchCond (toRow u) ⟨str "id", str "eq", CondVal.cint n⟩ = true) := by
  cases hid : u.id with
  | none =>
    simp [sqliteCondEval, matchCond, str, hid, toRow, rowGetV, alGet, optValI,
      pyIntOfVal, pyIntOfCondVal]
  | some k =>
    simp [sqliteCondEval, matchCond, str, hid, toRow, rowGetV, alGet, optValI,
      pyIntOfVal, pyIntOfCondVal]

theorem agree_field_eq (u : UserRow) (f s : Str)
    (hf : f ∈ [str "name", str "email", str "region", str "signup_date"]) :
    (sqliteCondEval u ⟨f, str "eq", CondVal.cstr s⟩ = some true) ↔
      (matchCond (toRow u) ⟨f, str "eq", CondVal.cstr s⟩ = true) := by
  simp only [List.mem_cons, List.mem_singleton, List.not_mem_nil, or_false] at hf
  rcases hf with rfl | rfl | rfl | rfl
  · cases hv : u.name with
    | none =>
      simp [sqliteCondEval, matchCond, str, fieldOf, toRow, rowGetV, alGet, optValS, hv]
    | some v =>
      simp [sqliteCondEval, matchCond, str, fieldOf, toRow, rowGetV, alGet, optValS, hv,
        condValStr, pyStr]
  · cases hv : u.email with
    | none =>
      simp [sqliteCondEval, matchCond, str, fieldOf, toRow, rowGetV, alGet, optValS, hv]
    | some v =>
      simp [sqliteCondEval, matchCond, str, fieldOf, toRow, rowGetV, alGet, optValS, hv,
        condValStr, pyStr]
  · cases hv : u.region with
    | none =>
      simp [sqliteCondEval, matchCond, str, fieldOf, toRow, rowGetV, alGet, optValS, hv]
    | some v =>
      simp [sqliteCondEval, matchCond, str, fieldOf, toRow, rowGetV, alGet, optValS, hv,
        condValStr, pyStr]
  · cases hv : u.signup_date with
    | none =>
      simp [sqliteCondEval, matchCond, str, fieldOf, toRow, rowGetV, alGet, optValS, hv]
    | some v =>
      simp [sqliteCondEval, matchCond, str, fieldOf, toRow, rowGetV, alGet, optValS, hv,
        condValStr, pyStr]

theorem agree_field_like (u : UserRow) (f s : Str)
    (hf : f ∈ [str "name", str "email", str "region", str "signup_date"])
    (hnw : noWild s = true) :
    (sqliteCondEval u ⟨f, str "like", CondVal.cstr s⟩ = some true) ↔
      (matchCond (toRow u) ⟨f, str "like", CondVal.cstr s⟩ = true) := by
  simp only [List.mem_cons, List.mem_singleton, List.not_mem_nil, or_false] at hf
  rcases hf with rfl | rfl | rfl | rfl
  · cases hv : u.name with
    | none =>
      simp [sqliteCondEval, matchCond, str, fieldOf, toRow, rowGetV, alGet, optValS, hv]
    | some v =>
      simp [sqliteCondEval, matchCond, str, fieldOf, toRow, rowGetV, alGet, optValS, hv,
        condValStr, pyStr, sqliteLike, lowerL_pct,
        likeChars_pct_wrap (noWild_lower hnw), lowerL_idem]
  · cases hv : u.email with
    | none =>
      simp [sqliteCondEval, matchCond, str, fieldOf, toRow, rowGetV, alGet, optValS, hv]
    | some v =>
      simp [sqliteCondEval, matchCond, str, fieldOf, toRow, rowGetV, alGet, optValS, hv,
        condValStr, pyStr, sqliteLike, lowerL_pct,
        likeChars_pct_wrap (noWild_lower hnw), lowerL_idem]
  · cases hv : u.region with
    | none =>
      simp [sqliteCondEval, matchCond, str, fieldOf, toRow, rowGetV, alGet, optValS, hv]
    | some v =>
      simp [sqliteCondEval, matchCond, str, fieldOf, toRow, rowGetV, alGet, optValS, hv,
        condValStr, pyStr, sqliteLike, lowerL_pct,
        likeChars_pct_wrap (noWild_lower hnw), lowerL_idem]
  · cases hv : u.signup_date with
    | none =>
      simp [sqliteCondEval, matchCond, str, fieldOf, toRow, rowGetV, alGet, optValS, hv]
    | some v =>
      simp [sqliteCondEval, matchCond, str, fieldOf, toRow, rowGetV, alGet, optValS, hv,
        condValStr, pyStr, sqliteLike, lowerL_pct,
        likeChars_pct_wrap (noWild_lower hnw), lowerL_idem]

theorem agree_range (u : UserRow) (a b : Str) (hne : a ≠ []) :
    (sqliteCondEval u ⟨str "signup_date", str "range", CondVal.crange a b⟩ = some true) ↔
      (matchCond (toRow u) ⟨str "signup_date", str "range", CondVal.crange a b⟩ = true) := by
  cases hv : u.signup_date with
  | none =>
    simp [sqliteCondEval, matchCond, str, toRow, rowGetV, alGet, optValS, hv, valTruthy]
  | some v =>
    cases v with
    | nil =>
      obtain ⟨a0, a2⟩ : ∃ a0 a2, a = a0 :: a2 := by
        cases a with
        | nil => exact absurd rfl hne
        | cons a0 a2 => exact ⟨a0, a2, rfl⟩
      obtain ⟨a2, rfl⟩ := a2
      simp [sqliteCondEval, matchCond, str, toRow, rowGetV, alGet, optValS, hv,
        valTruthy, strLtB, pyStr]
    | cons c0 ct =>
      simp [sqliteCondEval, matchCond, str, toRow, rowGetV, alGet, optValS, hv,
        valTruthy, pyStr]

theorem agree_any (u : UserRow) (s : Str) (hnw : noWild s = true) :
    (sqliteCondEval u ⟨str "any", str "like", CondVal.cstr s⟩ = some true) ↔
      (matchCond (toRow u) ⟨str "any", str "like", CondVal.cstr s⟩ = true) := by
  obtain ⟨uid, un, ue, ur, usd⟩ := u
  cases uid <;> cases un <;> cases ue <;> cases ur <;> cases usd <;>
    simp [sqliteCondEval, matchCond, str, condValStr, toRow, rowGetV, alGet,
      optValI, optValS, pyStr, sqliteLike, sql3Or_true, lowerL_pct,
      likeChars_pct_wrap hnw, likeChars_pct_wrap (noWild_lower hnw), lowerL_idem]

/-- Per-condition agreement between the SQLite evaluation of the compiled
fragment and the local evaluator, for well-formed conditions. -/
theorem cond_agree (u : UserRow) (c : Cond) (hw : WfCond c) :
    (sqliteCondEval u c = some true) ↔ (matchCond (toRow u) c = true) := by
  obtain ⟨cf, co, cv⟩ := c
  rcases hw with ⟨hf, ho, n, hv⟩ | ⟨hf, ho, s, hv, ha⟩ | ⟨hf, ho, s, hv, ha, hnw⟩ |
    ⟨hf, ho, s, hv, ha, hnw⟩ | ⟨hf, ho, a, b, hv, hne, ha, hb⟩
  · cases hf; cases ho; cases hv
    exact agree_id_eq u n
  · cases ho; cases hv
    exact agree_field_eq u cf s hf
  · cases ho; cases hv
    exact agree_field_like u cf s hf hnw
  · cases hf; cases ho; cases hv
    exact agree_any u s hnw
  · cases hf; cases ho; cases hv
    exact agree_range u a b hne

/-- C2 (amended): for every non-empty DNF of well-formed, non-empty clauses
(condition shapes as the parser produces, ASCII values, like-values free of
the SQL wildcards percent and underscore, non-empty range starts) and every
ASCII canonical row, the WHERE clause compiled by _build_sql_where_from_dnf
matches the row in the store (sqliteWhereMatches gives its SQLite
semantics) exactly when row_matches_dnf accepts it. -/
theorem compiler_evaluator_agree (dnf : DNF) (u : UserRow)
    (hwc : ∀ clause ∈ dnf, ∀ c ∈ clause, WfCond c)
    (_hcl : ∀ clause ∈ dnf, clause ≠ [])
    (hdnf : dnf ≠ [])
    (_hu : WfRow u) :
    (sqliteWhereMatches dnf u = true) ↔ (rowMatchesDnf (toRow u) dnf = true) := by
  unfold sqliteWhereMatches rowMatchesDnf
  rw [if_neg hdnf, lowerKeys_toRow, decide_eq_true_eq, foldl_sql3Or_true,
    List.any_eq_true]
  constructor
  · rintro (h | ⟨cl, hclm, h⟩)
    · cases h
    · refine ⟨cl, hclm, ?_⟩
      rw [List.all_eq_true]
      unfold sqliteClauseEval at h
      have hall := (foldl_sql3And_true (sqliteCondEval u) cl (some true)).mp h
      intro c hc
      exact (cond_agree u c (hwc cl hclm c hc)).mp (hall.2 c hc)
  · rintro ⟨cl, hclm, h⟩
    refine Or.inr ⟨cl, hclm, ?_⟩
    unfold sqliteClauseEval
    rw [foldl_sql3And_true]
    exact ⟨rfl, fun c hc =>
      (cond_agree u c (hwc cl hclm c hc)).mpr (List.all_eq_true.mp h c hc)⟩

/-- C2 witness: agreement at a concrete region predicate and row. -/
theorem compiler_evaluator_agree_witness :
    (sqliteWhereMatches [[⟨str "region", str "eq", CondVal.cstr (str "eu")⟩]]
        ⟨some 1, some (str "alice"), some (str "a@b.c"), some (str "EU"),
         some (str "2025-01-02")⟩ = true) ↔
      (rowMatchesDnf (toRow ⟨some 1, some (str "alice"), some (str "a@b.c"),
          some (str "EU"), some (str "2025-01-02")⟩)
        [[⟨str "region", str "eq", CondVal.cstr (str "eu")⟩]] = true) := by
  refine compiler_evaluator_agree _ _ ?_ ?_ ?_ ?_
  · intro clause hclm c hcm
    simp only [List.mem_singleton] at hclm
    subst hclm
    simp only [List.mem_singleton] at hcm
    subst hcm
    exact Or.inr (Or.inl ⟨by decide, rfl, str "eu", rfl, by decide⟩)
  · intro clause hclm
    simp only [List.mem_singleton] at hclm
    subst hclm
    simp
  · simp
  · refine ⟨?_, ?_, ?_, ?_⟩ <;> (intro s hs; cases hs; decide)

/-- The row violating C2: name xyz. -/
def uCx : UserRow := ⟨some 1, some (str "xyz"), none, none, none⟩

/-- C2 counterexample: for the parser-reachable predicate any like x_z
(underscore survives normalisation and is an SQL LIKE wildcard), the
compiled WHERE matches the row with name xyz while the local evaluator
rejects it; and for the empty DNF the compiled WHERE is 1=1, which matches
every row, while the evaluator matches none. -/
theorem compiler_evaluator_counterexample :
    (sqliteWhereMatches [[⟨str "any", str "like", CondVal.cstr (str "x_z")⟩]] uCx = true
      ∧ rowMatchesDnf (toRow uCx)
          [[⟨str "any", str "like", CondVal.cstr (str "x_z")⟩]] = false)
    ∧ (sqliteWhereMatches [] uCx = true ∧ rowMatchesDnf (toRow uCx) [] = false) := by
  refine ⟨⟨?_, ?_⟩, ?_, ?_⟩
  · simp [sqliteWhereMatches, sqliteClauseEval, sqliteCondEval, uCx, str, condValStr,
      sqliteLike, likeChars, sql3Or, sql3And, lowerL, asciiLower, pyStr,
      show intRepr 1 = str "1" from rfl]
  · decide
  · rfl
  · decide

/-! ## Query parser (parse_query_to_dnf): a small regular-expression engine
faithful to the Python patterns — leftmost search, greedy quantifiers,
left-first alternation, ASCII word boundaries, one capture group. -/

/-- The regular-expression shapes the parser patterns use: character
classes, literals, sequencing, left-first alternation, greedy option,
greedy star and plus over character classes, the single capture group, and
the word boundary. -/
inductive RE where
  | cls (p : Char → Bool) : RE
  | lit (cs : Str) : RE
  | seq (a b : RE) : RE
  | alt (a b : RE) : RE
  | opt (a : RE) : RE
  | starC (p : Char → Bool) : RE
  | plusC (p : Char → Bool) : RE
  | grp (a : RE) : RE
  | wordB : RE

/-- ASCII word character (the relevant fragment of the regex w class). -/
def isWordChar (c : Char) : Bool :=
  (97 ≤ c.toNat && c.toNat ≤ 122) || (65 ≤ c.toNat && c.toNat ≤ 90) ||
  (48 ≤ c.toNat && c.toNat ≤ 57) || c = '_'

/-- Greedy (descending) end positions for a starred character class. -/
def starEnds (p : Char → Bool) (s : Str) (pos : Nat) : List Nat :=
  let k := ((s.drop pos).takeWhile p).length
  (List.range (k + 1)).reverse.map (fun i => pos + i)

def mergeCap : Option (Nat × Nat) → Option (Nat × Nat) → Option (Nat × Nat)
  | some x, _ => some x
  | none, y => y

/-- All ways a pattern can match starting at pos, as (end position, capture
span), in backtracking priority order: alternation left first, quantifiers
longest first. -/
def runRE : RE → Str → Nat → List (Nat × Option (Nat × Nat))
  | RE.cls p, s, pos =>
      match s.get? pos with
      | some c => if p c then [(pos + 1, none)] else []
      | none => []
  | RE.lit cs, s, pos =>
      if cs.isPrefixOf (s.drop pos) then [(pos + cs.length, none)] else []
  | RE.seq a b, s, pos =>
      (runRE a s pos).flatMap (fun r =>
        (runRE b s r.1).map (fun r2 => (r2.1, mergeCap r.2 r2.2)))
  | RE.alt a b, s, pos => runRE a s pos ++ runRE b s pos
  | RE.opt a, s, pos => runRE a s pos ++ [(pos, none)]
  | RE.starC p, s, pos => (starEnds p s pos).map (fun e => (e, none))
  | RE.plusC p, s, pos =>
      ((starEnds p s pos).filter (fun e => pos < e)).map (fun e => (e, none))
  | RE.grp a, s, pos => (runRE a s pos).map (fun r => (r.1, some (pos, r.1)))
  | RE.wordB, s, pos =>
      let before := pos ≠ 0 &&
        (match s.get? (pos - 1) with | some c => isWordChar c | none => false)
      let here := match s.get? pos with | some c => isWordChar c | none => false
      if before != here then [(pos, none)] else []

/-- re.search group(1): the first match (leftmost start, then priority
order) and its captured substring. -/
def searchGroup (re : RE) (s : Str) : Option Str :=
  match ((List.range (s.length + 1)).filterMap (fun i =>
    match runRE re s i with
    | [] => none
    | r :: _ => some r)).head? with
  | none => none
  | some (_, some (a, b)) => some ((s.drop a).take (b - a))
  | some (_, none) => some []

def wsC (c : Char) : Bool := isPySpace c

def digitC (c : Char) : Bool := c.isDigit

def lowAlC (c : Char) : Bool := 97 ≤ c.toNat && c.toNat ≤ 122

def emailLocalC (c : Char) : Bool :=
  lowAlC c || digitC c || c = '.' || c = '_' || c = '%' || c = '+' || c = '-'

def emailDomC (c : Char) : Bool := lowAlC c || digitC c || c = '.' || c = '-'

def identC (c : Char) : Bool := lowAlC c || digitC c || c = '_'

/-- Pattern ([a-z0-9._%+-]+@[a-z0-9.-]+[.][a-z]\x7b2,\x7d). -/
def emailRE : RE :=
  RE.grp (RE.seq (RE.plusC emailLocalC) (RE.seq (RE.lit (str "@"))
    (RE.seq (RE.plusC emailDomC) (RE.seq (RE.lit (str "."))
      (RE.seq (RE.cls lowAlC) (RE.seq (RE.cls lowAlC) (RE.starC lowAlC)))))))

/-- Pattern b(?:user s+)? id s* (?:=|is)? s* (d+) b, with s and d the
whitespace and digit classes and b the word boundary. -/
def idRE : RE :=
  RE.seq RE.wordB (RE.seq (RE.opt (RE.seq (RE.lit (str "user")) (RE.plusC wsC)))
    (RE.seq (RE.lit (str "id")) (RE.seq (RE.starC wsC)
      (RE.seq (RE.opt (RE.alt (RE.lit (str "=")) (RE.lit (str "is"))))
        (RE.seq (RE.starC wsC) (RE.seq (RE.grp (RE.plusC digitC)) RE.wordB))))))

def digit2 : RE := RE.seq (RE.cls digitC) (RE.cls digitC)

/-- Pattern dddd-dd-dd (the ISO date digits). -/
def dateNumRE : RE :=
  RE.seq digit2 (RE.seq digit2 (RE.seq (RE.lit (str "-"))
    (RE.seq digit2 (RE.seq (RE.lit (str "-")) digit2))))

/-- Pattern b(?:signup_date|signup|signed up|date) s* (?:=|is|on)? s*
(dddd-dd-dd) b. -/
def dateRE : RE :=
  RE.seq RE.wordB (RE.seq
    (RE.alt (RE.lit (str "signup_date")) (RE.alt (RE.lit (str "signup"))
      (RE.alt (RE.lit (str "signed up")) (RE.lit (str "date")))))
    (RE.seq (RE.starC wsC)
      (RE.seq (RE.opt (RE.alt (RE.lit (str "=")) (RE.alt (RE.lit (str "is"))
        (RE.lit (str "on")))))
        (RE.seq (RE.starC wsC) (RE.seq (RE.grp dateNumRE) RE.wordB)))))

/-- Pattern b(?:region s*)?(na|eu|apac|latam) b. -/
def regionRE : RE :=
  RE.seq RE.wordB (RE.seq (RE.opt (RE.seq (RE.lit (str "region")) (RE.starC wsC)))
    (RE.seq (RE.grp (RE.alt (RE.lit (str "na")) (RE.alt (RE.lit (str "eu"))
      (RE.alt (RE.lit (str "apac")) (RE.lit (str "latam")))))) RE.wordB))

/-- Pattern b(?:name s*(?:=|is)? s*|user s*(?:with s+name s+)?)([a-z0-9_]+) b. -/
def nameRE : RE :=
  RE.seq RE.wordB (RE.seq
    (RE.alt
      (RE.seq (RE.lit (str "name")) (RE.seq (RE.starC wsC)
        (RE.seq (RE.opt (RE.alt (RE.lit (str "=")) (RE.lit (str "is"))))
          (RE.starC wsC))))
      (RE.seq (RE.lit (str "user")) (RE.seq (RE.starC wsC)
        (RE.opt (RE.seq (RE.lit (str "with")) (RE.seq (RE.plusC wsC)
          (RE.seq (RE.lit (str "name")) (RE.plusC wsC))))))))
    (RE.seq (RE.grp (RE.plusC identC)) RE.wordB))

/-- re.sub of one-or-more whitespace by a single space: the flag records
whether the previous character was whitespace. -/
def collapseWsAux : Bool → Str → Str
  | _, [] => []
  | prevWs, c :: t =>
      if isPySpace c then
        if prevWs then collapseWsAux true t else ' ' :: collapseWsAux true t
      else c :: collapseWsAux false t

def collapseWs (s : Str) : Str := collapseWsAux false s

/-- The function norm of the source: strip, lower, collapse whitespace. -/
def normWs (s : Str) : Str := collapseWs (lowerL (pyStripL s))

/-- Characters kept by the punctuation normalisation (class a-z 0-9 at dot
hyphen underscore whitespace); everything else becomes a space. -/
def keepC (c : Char) : Bool :=
  lowAlC c || digitC c || c = '@' || c = '.' || c = '-' || c = '_' || isPySpace c

/-- The fully normalised query: norm, punctuation to spaces, collapse
whitespace again, strip. -/
def normQuery (query : Str) : Str :=
  pyStripL (collapseWs ((normWs query).map (fun c => if keepC c then c else ' ')))

/-- Match of the split pattern s+ w s+ anchored at the start of s: one or
more whitespace, the literal keyword, one or more whitespace, maximal runs
(shorter runs cannot help, as the keyword starts with a non-space). Returns
the matched length. -/
def matchKwAt (w : Str) (s : Str) : Option Nat :=
  let ws1 := (s.takeWhile isPySpace).length
  if ws1 = 0 then none
  else
    let rest := s.drop ws1
    if w.isPrefixOf rest then
      let ws2 := ((rest.drop w.length).takeWhile isPySpace).length
      if ws2 = 0 then none else some (ws1 + w.length + ws2)
    else none

/-- Leftmost occurrence of the split pattern: (start index, end index). -/
def findKw (w : Str) : Str → Option (Nat × Nat)
  | [] => none
  | c :: t =>
      match matchKwAt w (c :: t) with
      | some len => some (0, len)
      | none => (findKw w t).map (fun r => (r.1 + 1, r.2 + 1))

def splitKwGo (w : Str) : Nat → Str → List Str
  | 0, s => [s]
  | fuel + 1, s =>
      match findKw w s with
      | none => [s]
      | some (i, j) => s.take i :: splitKwGo w fuel (s.drop j)

/-- re.split on the pattern s+ w s+ (w is the keyword or / and). The length
of s bounds the number of matches, so it serves as fuel. -/
def splitKw (w : Str) (s : Str) : List Str := splitKwGo w s.length s

/-- Gregorian leap year. -/
def isLeap (y : Nat) : Bool := (y % 4 = 0 && !(y % 100 = 0)) || y % 400 = 0

def daysInMonth (y m : Nat) : Nat :=
  if m = 2 then (if isLeap y then 29 else 28)
  else if m = 4 || m = 6 || m = 9 || m = 11 then 30 else 31

/-- A calendar date (year, month, day). date.today() becomes an explicit
parameter of the parser. -/
structure Date where
  y : Nat
  m : Nat
  d : Nat
deriving DecidableEq

/-- Zero-padded two-digit rendering (strftime m / d fields). -/
def pad2 (n : Nat) : Str := if n < 10 then '0' :: natRepr n else natRepr n

/-- Zero-padded four-digit rendering (strftime Y field). -/
def pad4 (n : Nat) : Str :=
  List.replicate (4 - (natRepr n).length) '0' ++ natRepr n

/-- strftime of a date in ISO form Y-m-d. -/
def isoDate (d : Date) : Str :=
  pad4 d.y ++ str "-" ++ pad2 d.m ++ str "-" ++ pad2 d.d

/-- parse_last_month_range: first day of the previous month (inclusive) to
first day of the current month (exclusive), as ISO strings. The day before
the first of this month is the last day of the previous month. -/
def parseLastMonthRange (today : Date) : Str × Str :=
  let firstThisMonth : Date := ⟨today.y, today.m, 1⟩
  let lastPrevMonth : Date :=
    if today.m = 1 then ⟨today.y - 1, 12, 31⟩
    else ⟨today.y, today.m - 1, daysInMonth today.y (today.m - 1)⟩
  let firstPrevMonth : Date := ⟨lastPrevMonth.y, lastPrevMonth.m, 1⟩
  (isoDate firstPrevMonth, isoDate firstThisMonth)

/-- The name recogniser followed by the fallback any-like condition; the
region branch falls through to here when its guard fails (its if has no
else, so control reaches the name check). -/
def nameOrFallback (token : Str) : List Cond :=
  match searchGroup nameRE token with
  | some g => [⟨str "name", str "eq", CondVal.cstr g⟩]
  | none =>
      let val := pyStripL token
      if val.isEmpty then [] else [⟨str "any", str "like", CondVal.cstr val⟩]

/-- The per-token classification chain of parse_query_to_dnf: last-month
shortcut, email, id, date, region (guarded), name, fallback. The id group
is one-or-more digits, so the int conversion always succeeds and the getD
default is never taken. -/
def classifyToken (today : Date) (token : Str) : List Cond :=
  if containsL (str "last month") token || containsL (str "previous month") token then
    [⟨str "signup_date", str "range",
      CondVal.crange (parseLastMonthRange today).1 (parseLastMonthRange today).2⟩]
  else
    match searchGroup emailRE token with
    | some g => [⟨str "email", str "eq", CondVal.cstr g⟩]
    | none =>
    match searchGroup idRE token with
    | some g => [⟨str "id", str "eq", CondVal.cint ((pyParseInt g).getD 0)⟩]
    | none =>
    match searchGroup dateRE token with
    | some g => [⟨str "signup_date", str "eq", CondVal.cstr g⟩]
    | none =>
    match searchGroup regionRE token with
    | some g =>
        if containsL (str "region") token ||
            (g = str "na" || g = str "eu" || g = str "apac" || g = str "latam") then
          [⟨str "region", str "eq", CondVal.cstr (upperL g)⟩]
        else nameOrFallback token
    | none => nameOrFallback token

/-- One or-part: split on and, strip, drop empties, classify each token. -/
def andClause (today : Date) (part : Str) : List Cond :=
  ((((splitKw (str "and") part).map pyStripL).filter
    (fun p => !p.isEmpty)).map (classifyToken today)).flatten

/-- The dnf accumulated by the loop, before the fallback: or-parts whose
clause came out non-empty. -/
def rawDnf (today : Date) (query : Str) : DNF :=
  (((splitKw (str "or") (normQuery query)).map pyStripL).filter
    (fun p => !p.isEmpty)).filterMap (fun part =>
      if andClause today part = [] then none else some (andClause today part))

/-- parse_query_to_dnf: the accumulated dnf, or the single fallback clause
any like q when it is empty. -/
def parseQueryToDnf (today : Date) (query : Str) : DNF :=
  if rawDnf today query = [] then
    [[⟨str "any", str "like", CondVal.cstr (normQuery query)⟩]]
  else rawDnf today query

/-- C7: for every evaluation date and every input string, the parser
returns a non-empty DNF in which every clause is non-empty; when
classification yields no clauses the result is exactly the single fallback
clause any like the normalised input; and the parser is a function of its
arguments, hence deterministic and total. -/
theorem parser_total (today : Date) (query : Str) :
    parseQueryToDnf today query ≠ [] ∧
    (∀ clause ∈ parseQueryToDnf today query, clause ≠ []) ∧
    (rawDnf today query = [] →
      parseQueryToDnf today query =
        [[⟨str "any", str "like", CondVal.cstr (normQuery query)⟩]]) := by
  refine ⟨?_, ?_, ?_⟩
  · by_cases h : rawDnf today query = []
    · unfold parseQueryToDnf
      rw [if_pos h]
      simp
    · unfold parseQueryToDnf
      rw [if_neg h]
      exact h
  · intro clause hc
    by_cases h : rawDnf today query = []
    · unfold parseQueryToDnf at hc
      rw [if_pos h] at hc
      simp only [List.mem_singleton] at hc
      subst hc
      simp
    · unfold parseQueryToDnf at hc
      rw [if_neg h] at hc
      unfold rawDnf at hc
      rcases List.mem_filterMap.mp hc with ⟨part, _, hf⟩
      by_cases hcl : andClause today part = []
      · rw [if_pos hcl] at hf
        exact absurd hf (Option.noConfusion)
      · rw [if_neg hcl] at hf
        have : andClause today part = clause := Option.some.inj hf
        rw [← this]
        exact hcl
  · intro h
    unfold parseQueryToDnf
    rw [if_pos h]

/-! ## Multi-source search (search_sql_users / search_api_users /
search_file_users / search_everywhere_users) -/

/-- One element of the data list the REST call returns: a dict row, or a
non-dict element (dropped by the isinstance filter). -/
inductive ApiItem where
  | adict (r : Row) : ApiItem
  | anondict : ApiItem

/-- The data field of a query_api response: a list, a truthy non-list
value, or a falsy value (None and friends, replaced by the empty list by
the or-default). -/
inductive ApiData where
  | alist (items : List ApiItem) : ApiData
  | anonlist : ApiData
  | afalsy : ApiData

/-- The query_api response as search_api_users reads it: the success flag
and the data field. -/
structure ApiResp where
  success : Bool
  data : ApiData

/-- The ambient backends of the multi-source search: execute_sql as an
oracle (statement, parameters, limit to fetched result), the REST response
for GET /users, and the rows read from each default file together with its
base name (the pandas readers are outside the model). -/
structure SearchEnv where
  sqlExec : Str → List Val → Nat → SqlResult
  apiResp : ApiResp
  fileRows : List (Str × List Row)

/-- search_sql_users with the dnf supplied by the caller (as
search_everywhere_users does): compile the WHERE, run the statement with
limit 200, drop everything on an unsuccessful result, else tag each row
with source sql. -/
def searchSqlUsers (sqlExec : Str → List Val → Nat → SqlResult) (dnf : DNF) :
    List Row :=
  let wp := buildSqlWhereFromDnf dnf
  let sql := str "SELECT id, name, email, region, signup_date FROM users WHERE " ++ wp.1
  let res := sqlExec sql wp.2 200
  if !res.success then []
  else res.rows.map (fun r => alSet r (str "source") (Val.vstr (str "sql")))

/-- search_api_users: unsuccessful response or truthy non-list data give no
rows; a falsy data field becomes the empty list; dict elements matching the
dnf are kept and tagged with source api. -/
def searchApiUsers (resp : ApiResp) (dnf : DNF) : List Row :=
  if !resp.success then []
  else
    match resp.data with
    | ApiData.afalsy => []
    | ApiData.anonlist => []
    | ApiData.alist items =>
        (items.filterMap (fun it =>
          match it with
          | ApiItem.adict r => if rowMatchesDnf r dnf then some r else none
          | ApiItem.anondict => none)).map
          (fun r => alSet r (str "source") (Val.vstr (str "api")))

/-- search_file_users: per file, filter the read rows by the dnf and tag
them with source file:basename; concatenate in file order. -/
def searchFileUsers (fileRows : List (Str × List Row)) (dnf : DNF) : List Row :=
  (fileRows.map (fun pr =>
    (pr.2.filter (fun r => rowMatchesDnf r dnf)).map
      (fun r => alSet r (str "source") (Val.vstr (str "file:" ++ pr.1))))).flatten

/-- search_everywhere_users: parse once, query the three backends
sequentially, dedupe the concatenation sql ++ api ++ file. -/
def searchEverywhereUsers (env : SearchEnv) (today : Date) (query : Str) :
    List Row :=
  let dnf := parseQueryToDnf today query
  dedupeRows (searchSqlUsers env.sqlExec dnf ++ searchApiUsers env.apiResp dnf ++
    searchFileUsers env.fileRows dnf)

/-- C10: backend failures are isolated. With a relational backend whose
every execution reports an unsuccessful result, the merged search is built
from the api and file backends alone, and equals the search against a
relational backend that succeeds with zero rows; with a REST backend that
reports failure (whatever its data field holds) the merged search is built
from the sql and file backends alone, and equals the search against a REST
backend succeeding with an empty list — as it does when the REST data is a
truthy non-list. No output distinguishes an outage from a backend matching
no rows, and no error indication is produced. -/
theorem backend_failure_isolated (env : SearchEnv) (e : Str) (d : ApiData)
    (today : Date) (query : Str) :
    (searchEverywhereUsers
        { env with sqlExec := fun _ _ _ => ⟨false, some e, [], []⟩ } today query =
      dedupeRows (searchApiUsers env.apiResp (parseQueryToDnf today query) ++
        searchFileUsers env.fileRows (parseQueryToDnf today query))) ∧
    (searchEverywhereUsers
        { env with sqlExec := fun _ _ _ => ⟨false, some e, [], []⟩ } today query =
      searchEverywhereUsers
        { env with sqlExec := fun _ _ _ => ⟨true, none, [], []⟩ } today query) ∧
    (searchEverywhereUsers { env with apiResp := ⟨false, d⟩ } today query =
      dedupeRows (searchSqlUsers env.sqlExec (parseQueryToDnf today query) ++
        searchFileUsers env.fileRows (parseQueryToDnf today query))) ∧
    (searchEverywhereUsers { env with apiResp := ⟨false, d⟩ } today query =
      searchEverywhereUsers
        { env with apiResp := ⟨true, ApiData.alist []⟩ } today query) ∧
    (searchEverywhereUsers { env with apiResp := ⟨true, ApiData.anonlist⟩ } today query =
      searchEverywhereUsers
        { env with apiResp := ⟨true, ApiData.alist []⟩ } today query) := by
  refine ⟨?_, ?_, ?_, ?_, ?_⟩
  · simp [searchEverywhereUsers, searchSqlUsers]
  · simp [searchEverywhereUsers, searchSqlUsers]
  · simp [searchEverywhereUsers, searchApiUsers]
  · simp [searchEverywhereUsers, searchApiUsers]
  · simp [searchEverywhereUsers, searchApiUsers]

/-- The parser at a concrete date and an input made of punctuation only:
every token is erased by normalisation, so classification yields nothing
and the fallback clause is returned. -/
theorem parser_total_witness :
    rawDnf ⟨2026, 10, 12⟩ (str "??!") = [] ∧
    parseQueryToDnf ⟨2026, 10, 12⟩ (str "??!") =
      [[⟨str "any", str "like", CondVal.cstr (normQuery (str "??!"))⟩]] :=
  ⟨by decide, (parser_total ⟨2026, 10, 12⟩ (str "??!")).2.2 (by decide)⟩

end MCP
